import Mathlib

/-!
# goexpert-otel: a postal-code to temperature service chain

A shallow embedding of the two Go services of the repository,

* `service_a/main.go`, the front Gateway (`POST /temperature`), and
* `service_b/main.go`, the Resolver (`GET /temperature/{zipcode}`),

together with the properties their specification states about them.

Conventions of the embedding.

* A Go `string` is represented by its sequence of Unicode code points
  (`List Char`), i.e. the strings considered are the valid UTF-8 ones.
  `len` is Go's `len`: the number of bytes of the UTF-8 encoding.
* A Go `error` is represented by its message.
* A `float64` is represented exactly (sign, integer mantissa, binary
  exponent); arithmetic is exact rational arithmetic followed by IEEE 754
  round-to-nearest-even.
* Outbound HTTP calls are answered by an oracle that is a parameter of the
  handlers; every call made is recorded in a log.
* A Go function returns or panics; a handler that panics writes no response.
* The results of library calls on data the services do not produce themselves
  (decoding of the request body and of the providers' replies, removal of
  diacritics) are inputs. The JSON text exchanged between the two services is
  produced and decoded by the model.
-/

namespace GoexpertOtel

/-! ## Strings -/

/-- A Go string, as the sequence of its code points. -/
abbrev GoString := List Char

/-- A Go error value, represented by its message (`errors.New msg`). -/
abbrev GoError := GoString

deriving instance DecidableEq for Except

/-- Go's builtin `len` on a string: the length in bytes of its UTF-8 encoding. -/
def len (s : GoString) : Nat := (s.map Char.utf8Size).sum

/-- Worker of `stringsReplace`: walks the string once; `skip` counts the characters of a
matched occurrence of `old` that are still to be dropped, `n` the replacements still
allowed (a negative `n` never reaches zero). -/
def stringsReplaceAux (old new : GoString) : GoString → Int → Nat → GoString
  | [], _, _ => []
  | _ :: cs, n, skip + 1 => stringsReplaceAux old new cs n skip
  | c :: cs, n, 0 =>
    if n ≠ 0 ∧ old.isPrefixOf (c :: cs) = true then
      new ++ stringsReplaceAux old new cs (n - 1) (old.length - 1)
    else c :: stringsReplaceAux old new cs n 0

/-- Go's `strings.Replace(s, old, new, n)` for a non-empty `old`: the first `n`
non-overlapping occurrences of `old`, from the left, are replaced by `new`
(all of them when `n < 0`). -/
def stringsReplace (s old new : GoString) (n : Int) : GoString :=
  stringsReplaceAux old new s n 0

/-- Go's `regexp.MatchString("[0-9]", s)`: the pattern is not anchored, so it matches
exactly when some character of `s` is an ASCII digit. The pattern is a constant that
compiles, so the error result of `MatchString` is always `nil`. -/
def regexpMatchDigit (s : GoString) : Bool := s.any Char.isDigit

/-! ## The postal-code validator -/

namespace ServiceA

/-- The function `convertZipcode` of `service_a/main.go`: it returns only an error
(`none` is Go's `nil`). -/
def convertZipcode (zipcode : GoString) : Option GoError :=
  let zipcode := stringsReplace zipcode "-".toList "".toList 1
  let matched := regexpMatchDigit zipcode
  if !matched then some "invalid zipcode".toList
  else if zipcode = "".toList ∨ len zipcode ≠ 8 then some "invalid zipcode".toList
  else none

end ServiceA

namespace ServiceB

/-- The function `convertZipcode` of `service_b/main.go`: it returns the normalised code
or an error. -/
def convertZipcode (zipcode : GoString) : Except GoError GoString :=
  let zipcode := stringsReplace zipcode "-".toList "".toList 1
  let matched := regexpMatchDigit zipcode
  if !matched then .error "invalid zipcode".toList
  else if zipcode = "".toList ∨ len zipcode ≠ 8 then .error "invalid zipcode".toList
  else .ok zipcode

end ServiceB

/-- The words of the specification: `t` is `s` with its first hyphen, if it has one,
removed and nothing else changed. -/
def IsFirstHyphenRemoved (s t : GoString) : Prop :=
  ('-' ∉ s ∧ t = s) ∨ ∃ pre post, '-' ∉ pre ∧ s = pre ++ '-' :: post ∧ t = pre ++ post

/-! ## float64

A finite `float64` is kept as sign, integer mantissa and binary exponent, its value being
`(-1)^neg * mant * 2^exp`. The results of the operations are in IEEE 754 canonical form:
`mant < 2^53`, `-1074 ≤ exp ≤ 971`, and `2^52 ≤ mant` unless `exp = -1074`. A product and
a sum are each rounded on their own: the multiplication and the addition of
`response*1.8 + 32` are not fused into one operation. -/

/-- A `float64` value. -/
inductive Float64
  | finite (neg : Bool) (mant : Nat) (exp : Int)
  | inf (neg : Bool)
  | nan
deriving DecidableEq

/-- The integer nearest to `n / d`, ties going to the even one. -/
def roundNearestEven (n d : Nat) : Nat :=
  let q := n / d
  let r := n % d
  if 2 * r < d then q
  else if d < 2 * r then q + 1
  else if q % 2 = 0 then q else q + 1

/-- The integer nearest to `(num / den) / 2^e`, ties going to the even one. -/
def roundScaled (num den : Nat) : Int → Nat
  | Int.ofNat k => roundNearestEven num (den * 2 ^ k)
  | Int.negSucc k => roundNearestEven (num * 2 ^ (k + 1)) den

/-- Worker of `log2`. -/
def log2Fuel : Nat → Nat → Nat
  | 0, _ => 0
  | fuel + 1, n => if 2 ≤ n then log2Fuel fuel (n / 2) + 1 else 0

/-- The floor of the binary logarithm of a positive natural number. -/
def log2 (n : Nat) : Nat := log2Fuel n n

/-- The floor of the binary logarithm of `num / den`, both positive. -/
def floorLog2Ratio (num den : Nat) : Int :=
  let a := log2 num
  let b := log2 den
  if b ≤ a then
    if den * 2 ^ (a - b) ≤ num then (a : Int) - b else (a : Int) - b - 1
  else
    if den ≤ num * 2 ^ (b - a) then (a : Int) - b else (a : Int) - b - 1

/-- IEEE 754 rounding to nearest, ties to even, of the rational `± num / den` (`den > 0`)
to a `float64`: 53 bits of precision, gradual underflow below `2^-1022`, overflow to
infinity. -/
def roundToFloat64 (neg : Bool) (num den : Nat) : Float64 :=
  if num = 0 then .finite neg 0 (-1074)
  else
    let e := max (floorLog2Ratio num den - 52) (-1074)
    let m := roundScaled num den e
    let m' := if m = 2 ^ 53 then 2 ^ 52 else m
    let e' := if m = 2 ^ 53 then e + 1 else e
    if 971 < e' then .inf neg else .finite neg m' e'

/-- Numerator of `m * 2^e` written as a fraction. -/
def fracNum (m : Nat) : Int → Nat
  | Int.ofNat k => m * 2 ^ k
  | Int.negSucc _ => m

/-- Denominator of `m * 2^e` written as a fraction. -/
def fracDen : Int → Nat
  | Int.ofNat _ => 1
  | Int.negSucc k => 2 ^ (k + 1)

/-- The `float64` product `x * y`. -/
def Float64.mul : Float64 → Float64 → Float64
  | .finite n1 m1 e1, .finite n2 m2 e2 =>
    roundToFloat64 (n1 != n2) (fracNum (m1 * m2) (e1 + e2)) (fracDen (e1 + e2))
  | .finite n1 m1 _, .inf n2 => if m1 = 0 then .nan else .inf (n1 != n2)
  | .inf n1, .finite n2 m2 _ => if m2 = 0 then .nan else .inf (n1 != n2)
  | .inf n1, .inf n2 => .inf (n1 != n2)
  | _, _ => .nan

/-- The integer `± m * 2^shift`, for a shift that is not negative. -/
def signedShift (neg : Bool) (m : Nat) (shift : Int) : Int :=
  (if neg then -1 else 1) * (m * 2 ^ shift.toNat : Nat)

/-- The `float64` sum `x + y`: the exact sum, as a multiple of the smaller power of two,
is rounded; an exact zero sum is negative only when both terms are. -/
def Float64.add : Float64 → Float64 → Float64
  | .finite n1 m1 e1, .finite n2 m2 e2 =>
    let e := min e1 e2
    let s := signedShift n1 m1 (e1 - e) + signedShift n2 m2 (e2 - e)
    if s = 0 then .finite (n1 && n2) 0 (-1074)
    else roundToFloat64 (decide (s < 0)) (fracNum s.natAbs e) (fracDen e)
  | .finite _ _ _, .inf n2 => .inf n2
  | .inf n1, .finite _ _ _ => .inf n1
  | .inf n1, .inf n2 => if n1 = n2 then .inf n1 else .nan
  | _, _ => .nan

/-- Whether a `float64` is neither an infinity nor a NaN. -/
def Float64.isFinite : Float64 → Bool
  | .finite _ _ _ => true
  | _ => false

/-- Go's `strconv.FormatFloat(x, 'f', 1, 64)`: fixed-point notation with one digit after
the point, the decimal expansion being rounded to nearest, ties to even. -/
def FormatFloat : Float64 → GoString
  | .nan => "NaN".toList
  | .inf false => "+Inf".toList
  | .inf true => "-Inf".toList
  | .finite neg m e =>
    let t := roundScaled (10 * m) 1 (-e)
    (if neg then "-".toList else []) ++ Nat.toDigits 10 (t / 10) ++ '.' :: Nat.toDigits 10 (t % 10)

/-- A JSON number literal: sign, digits before the point, digits after the point, and the
value of the exponent part (`0` when absent). -/
structure JNumber where
  neg : Bool
  int : List Char
  frac : List Char
  exp : Int
deriving DecidableEq

/-- The natural number written by a list of decimal digits. -/
def digitsValue (ds : List Char) : Nat := ds.foldl (fun acc c => 10 * acc + (c.toNat - 48)) 0

/-- Go's `strconv.ParseFloat(s, 64)` on a number literal: the `float64` nearest to the
decimal value, ties to even; an infinity is returned when the value is out of range (Go
then also returns an error). -/
def ParseFloat (n : JNumber) : Float64 :=
  let d := digitsValue (n.int ++ n.frac)
  match n.exp - n.frac.length with
  | Int.ofNat k => roundToFloat64 n.neg (d * 10 ^ k) 1
  | Int.negSucc k => roundToFloat64 n.neg d (10 ^ (k + 1))

/-- The constant `1.8` as a `float64`. -/
def float1_8 : Float64 := roundToFloat64 false 18 10

/-- The constant `32` as a `float64`. -/
def float32 : Float64 := roundToFloat64 false 32 1

/-- The constant `273.15` as a `float64`. -/
def float273_15 : Float64 := roundToFloat64 false 27315 100

/-- The values of the type that are `float64` numbers: finite, the mantissa has at most
53 bits and the exponent is in the range of the format. -/
def Float64.IsFloat64 : Float64 → Prop
  | .finite _ m e => m < 2 ^ 53 ∧ -1074 ≤ e ∧ e ≤ 971
  | _ => False

/-- The natural number `k` is the integer nearest to the rational `x`, ties going to the
even one. -/
def IsRne (x : ℚ) (k : ℕ) : Prop := |(k : ℚ) - x| < 1 / 2 ∨ (|(k : ℚ) - x| = 1 / 2 ∧ Even k)

/-- The sign factor of a sign bit. -/
def signOf (neg : Bool) : ℚ := if neg then -1 else 1

/-- The rational value of a finite `float64` (and `0` for the other values). -/
def Float64.toRat : Float64 → ℚ
  | .finite neg m e => signOf neg * ((m : ℚ) * 2 ^ e)
  | _ => 0

/-- The `float64` value `r` is a correctly rounded result for the exact value `x`: it is
finite, and no `float64` is nearer to `x`. -/
def IsNearestFloat64 (r : Float64) (x : ℚ) : Prop :=
  r.IsFloat64 ∧ ∀ y : Float64, y.IsFloat64 → |r.toRat - x| ≤ |y.toRat - x|

/-- The text `s` presents the `float64` value `v` in fixed-point notation with one decimal
place, rounded to nearest (ties to even): a minus sign when the sign bit of `v` is set,
the decimal digits of `t / 10`, a point, and the digit `t % 10`, where `t` is the integer
nearest to ten times the absolute value of `v`. -/
def IsOneDecimalOf (s : GoString) (v : Float64) : Prop :=
  ∃ (neg : Bool) (m : ℕ) (e : ℤ) (t : ℕ), v = .finite neg m e ∧ IsRne (10 * |v.toRat|) t ∧
    s = (if neg then "-".toList else []) ++ Nat.toDigits 10 (t / 10) ++
      '.' :: [Nat.digitChar (t % 10)]

/-! ## JSON

The decoder of `encoding/json`, as far as `json.Unmarshal(result, &data)` with a
`TemperatureStruct` target needs it. The input must be one JSON value, surrounded by
optional white space; any syntax error anywhere makes the call fail. -/

/-- White space of JSON: space, tab, carriage return, line feed. -/
def isSpace (c : Char) : Bool := c = ' ' ∨ c = '\t' ∨ c = '\r' ∨ c = '\n'

/-- The input without its leading white space. -/
def skipWs : List Char → List Char
  | [] => []
  | c :: cs => if isSpace c then skipWs cs else c :: cs

/-- The value of a hexadecimal digit. -/
def hexVal (c : Char) : Option Nat :=
  if '0' ≤ c ∧ c ≤ '9' then some (c.toNat - 48)
  else if 'a' ≤ c ∧ c ≤ 'f' then some (c.toNat - 87)
  else if 'A' ≤ c ∧ c ≤ 'F' then some (c.toNat - 55)
  else none

/-- The code unit written by the four hexadecimal digits of a `\u` escape. -/
def getu4 (a b c d : Char) : Option Nat :=
  match hexVal a, hexVal b, hexVal c, hexVal d with
  | some x, some y, some z, some w => some (((x * 16 + y) * 16 + z) * 16 + w)
  | _, _, _, _ => none

/-- The character denoted by a one-letter escape. -/
def simpleEscape (c : Char) : Option Char :=
  if c = '"' then some '"'
  else if c = '\\' then some '\\'
  else if c = '/' then some '/'
  else if c = 'b' then some (Char.ofNat 8)
  else if c = 'f' then some (Char.ofNat 12)
  else if c = 'n' then some '\n'
  else if c = 'r' then some '\r'
  else if c = 't' then some '\t'
  else none

/-- Puts a decoded character in front of the rest of a decoded string. -/
def consResult (c : Char) : Option (GoString × List Char) → Option (GoString × List Char)
  | some (s, rest) => some (c :: s, rest)
  | none => none

/-- A high surrogate that is not followed by a low surrogate decodes to U+FFFD. -/
def flushPending (pend : Option Nat) (res : Option (GoString × List Char)) :
    Option (GoString × List Char) :=
  match pend with
  | some _ => consResult (Char.ofNat 0xFFFD) res
  | none => res

/-- Decodes a JSON string from the character after its opening quote to its closing
quote, and returns the decoded string and the input after the closing quote. Control
characters and wrong escapes are errors. `pend` is a high surrogate read from a `\u` escape
and waiting for its low surrogate; a surrogate without partner decodes to U+FFFD. -/
def unquoteAux : Option Nat → List Char → Option (GoString × List Char)
  | _, [] => none
  | pend, c :: rest =>
    if c = '"' then flushPending pend (some ([], rest))
    else if c = '\\' then
      match rest with
      | 'u' :: h1 :: h2 :: h3 :: h4 :: rest1 =>
        match getu4 h1 h2 h3 h4 with
        | none => none
        | some r =>
          if 0xD800 ≤ r ∧ r < 0xDC00 then flushPending pend (unquoteAux (some r) rest1)
          else if 0xDC00 ≤ r ∧ r < 0xE000 then
            match pend with
            | some h =>
              consResult (Char.ofNat ((h - 0xD800) * 1024 + (r - 0xDC00) + 0x10000))
                (unquoteAux none rest1)
            | none => consResult (Char.ofNat 0xFFFD) (unquoteAux none rest1)
          else flushPending pend (consResult (Char.ofNat r) (unquoteAux none rest1))
      | e :: rest1 =>
        match simpleEscape e with
        | some x => flushPending pend (consResult x (unquoteAux none rest1))
        | none => none
      | [] => none
    else if c.toNat < 0x20 then none
    else flushPending pend (consResult c (unquoteAux none rest))

/-- Decodes a JSON string, from the character after its opening quote. -/
def parseString (cs : List Char) : Option (GoString × List Char) := unquoteAux none cs

/-- The integer part of a number literal: `0`, or a digit from 1 to 9 followed by
digits. -/
def parseInt (cs : List Char) : Option (List Char × List Char) :=
  match cs with
  | '0' :: rest => some (['0'], rest)
  | c :: rest => if c.isDigit then some (c :: rest.takeWhile Char.isDigit, rest.dropWhile Char.isDigit) else none
  | [] => none

/-- The optional fraction part of a number literal: a point followed by at least one
digit. -/
def parseFrac (cs : List Char) : Option (List Char × List Char) :=
  match cs with
  | '.' :: c :: rest =>
    if c.isDigit then some (c :: rest.takeWhile Char.isDigit, rest.dropWhile Char.isDigit) else none
  | '.' :: [] => none
  | _ => some ([], cs)

/-- The digits of the exponent part of a number literal, at least one. -/
def parseExpDigits (neg : Bool) (cs : List Char) : Option (Int × List Char) :=
  match cs with
  | c :: rest =>
    if c.isDigit then
      let v : Int := digitsValue (c :: rest.takeWhile Char.isDigit)
      some (if neg then -v else v, rest.dropWhile Char.isDigit)
    else none
  | [] => none

/-- The optional exponent part of a number literal: `e` or `E`, an optional sign, and at
least one digit. -/
def parseExp (cs : List Char) : Option (Int × List Char) :=
  match cs with
  | c :: rest =>
    if c = 'e' ∨ c = 'E' then
      match rest with
      | '+' :: rest1 => parseExpDigits false rest1
      | '-' :: rest1 => parseExpDigits true rest1
      | _ => parseExpDigits false rest
    else some (0, cs)
  | [] => some (0, [])

/-- A JSON number literal at the head of the input. -/
def parseNumber (cs : List Char) : Option (JNumber × List Char) :=
  let neg := cs.head? = some '-'
  let cs := if neg then cs.tail else cs
  match parseInt cs with
  | none => none
  | some (i, cs1) =>
    match parseFrac cs1 with
    | none => none
    | some (f, cs2) =>
      match parseExp cs2 with
      | none => none
      | some (e, cs3) => some (⟨neg, i, f, e⟩, cs3)

/-- A JSON value as the decoder of a flat struct sees it: arrays and objects are checked
for their syntax only. -/
inductive JValue
  | null
  | bool (b : Bool)
  | number (n : JNumber)
  | string (s : GoString)
  | composite
deriving DecidableEq

/-- The nesting depth above which `encoding/json` rejects its input. -/
def maxNestingDepth : Nat := 10000

mutual
/-- Reads one JSON value at the head of the input (no leading white space) and returns
it with the rest of the input. `depth` is the number of arrays and objects open around
the value; the first argument bounds the recursion. -/
def parseValue : Nat → Nat → List Char → Option (JValue × List Char)
  | 0, _, _ => none
  | fuel + 1, depth, cs =>
    match cs with
    | '"' :: rest =>
      match parseString rest with
      | some (s, rest1) => some (.string s, rest1)
      | none => none
    | 't' :: 'r' :: 'u' :: 'e' :: rest => some (.bool true, rest)
    | 'f' :: 'a' :: 'l' :: 's' :: 'e' :: rest => some (.bool false, rest)
    | 'n' :: 'u' :: 'l' :: 'l' :: rest => some (.null, rest)
    | '[' :: rest =>
      if maxNestingDepth < depth + 1 then none
      else
        match skipWs rest with
        | ']' :: rest1 => some (.composite, rest1)
        | rest1 =>
          match parseElements fuel (depth + 1) rest1 with
          | some rest2 => some (.composite, rest2)
          | none => none
    | '{' :: rest =>
      if maxNestingDepth < depth + 1 then none
      else
        match skipWs rest with
        | '}' :: rest1 => some (.composite, rest1)
        | rest1 =>
          match parseMembers fuel (depth + 1) rest1 with
          | some rest2 => some (.composite, rest2)
          | none => none
    | _ =>
      match parseNumber cs with
      | some (n, rest) => some (.number n, rest)
      | none => none
/-- Checks the elements of an array, from its first element to its closing bracket. -/
def parseElements : Nat → Nat → List Char → Option (List Char)
  | 0, _, _ => none
  | fuel + 1, depth, cs =>
    match parseValue fuel depth cs with
    | none => none
    | some (_, rest) =>
      match skipWs rest with
      | ',' :: rest1 => parseElements fuel depth (skipWs rest1)
      | ']' :: rest1 => some rest1
      | _ => none
/-- Checks the members of an object, from its first key to its closing brace. -/
def parseMembers : Nat → Nat → List Char → Option (List Char)
  | 0, _, _ => none
  | fuel + 1, depth, cs =>
    match cs with
    | '"' :: rest =>
      match parseString rest with
      | none => none
      | some (_, rest1) =>
        match skipWs rest1 with
        | ':' :: rest2 =>
          match parseValue fuel depth (skipWs rest2) with
          | none => none
          | some (_, rest3) =>
            match skipWs rest3 with
            | ',' :: rest4 => parseMembers fuel depth (skipWs rest4)
            | '}' :: rest4 => some rest4
            | _ => none
        | _ => none
    | _ => none
end


/-! ## Decoding a temperature report -/

/-- The type `TemperatureStruct` of `service_a/main.go`. -/
structure TemperatureStruct where
  City : GoString
  Celsius : Float64
  Fahrenheit : Float64
  Kelvin : Float64
deriving DecidableEq

/-- The fields of `TemperatureStruct`. -/
inductive ReportField
  | City | Celsius | Fahrenheit | Kelvin
deriving DecidableEq

/-- Case folding of a key, as far as it decides whether a key equals a field name made of
ASCII characters: ASCII letters are folded to upper case, and the Kelvin sign and the long
s, the only other characters whose fold is an ASCII letter, to `K` and `S`. -/
def foldRune (c : Char) : Char :=
  if 'a' ≤ c ∧ c ≤ 'z' then Char.ofNat (c.toNat - 32)
  else if c = Char.ofNat 0x212A then 'K'
  else if c = Char.ofNat 0x17F then 'S'
  else c

/-- Case folding of a key. -/
def foldName (s : GoString) : GoString := s.map foldRune

/-- The JSON names of the fields of `TemperatureStruct`, from its struct tags. -/
def fieldNames : List (GoString × ReportField) :=
  [("city".toList, .City), ("temp_C".toList, .Celsius), ("temp_F".toList, .Fahrenheit),
   ("temp_K".toList, .Kelvin)]

/-- The field a key of the input denotes: the one with that name, or else the one whose
name equals the key but for case. -/
def lookupField (key : GoString) : Option ReportField :=
  match fieldNames.find? (fun p => p.1 = key) with
  | some p => some p.2
  | none => (fieldNames.find? (fun p => foldName p.1 = foldName key)).map Prod.snd

/-- Stores a value into a field. `null` leaves the field as it is; a string goes into the
string field and a number in range into a `float64` field; anything else is an error. -/
def storeField (data : TemperatureStruct) (f : ReportField) (v : JValue) : Option TemperatureStruct :=
  match v, f with
  | .null, _ => some data
  | .string s, .City => some { data with City := s }
  | .number n, .Celsius =>
    if (ParseFloat n).isFinite then some { data with Celsius := ParseFloat n } else none
  | .number n, .Fahrenheit =>
    if (ParseFloat n).isFinite then some { data with Fahrenheit := ParseFloat n } else none
  | .number n, .Kelvin =>
    if (ParseFloat n).isFinite then some { data with Kelvin := ParseFloat n } else none
  | _, _ => none

/-- Stores the value of a member of the input; a key that denotes no field is skipped. -/
def storeMember (data : TemperatureStruct) (key : GoString) (v : JValue) :
    Option TemperatureStruct :=
  match lookupField key with
  | some f => storeField data f v
  | none => some data

/-- Decodes the members of the top-level object, from its first key to its closing brace;
later members overwrite earlier ones. -/
def decodeMembers : Nat → TemperatureStruct → List Char → Option (TemperatureStruct × List Char)
  | 0, _, _ => none
  | fuel + 1, data, cs =>
    match cs with
    | '"' :: rest =>
      match parseString rest with
      | none => none
      | some (key, rest1) =>
        match skipWs rest1 with
        | ':' :: rest2 =>
          match parseValue fuel 1 (skipWs rest2) with
          | none => none
          | some (v, rest3) =>
            match storeMember data key v with
            | none => none
            | some data1 =>
              match skipWs rest3 with
              | ',' :: rest4 => decodeMembers fuel data1 (skipWs rest4)
              | '}' :: rest4 => some (data1, rest4)
              | _ => none
        | _ => none
    | _ => none

/-- The `float64` zero. -/
def zeroFloat : Float64 := .finite false 0 (-1074)

/-- The zero value of `TemperatureStruct`, the value of `data` before decoding. -/
def zeroTemperature : TemperatureStruct := ⟨[], zeroFloat, zeroFloat, zeroFloat⟩

/-- The call `json.Unmarshal(result, &data)` of `service_a/main.go`: `none` when it returns
an error, otherwise the value of `data`. A top-level `null` leaves `data` at its zero
value; a top-level value that is neither `null` nor an object is an error. -/
def jsonUnmarshal (data : GoString) : Option TemperatureStruct :=
  match skipWs data with
  | '{' :: rest =>
    match skipWs rest with
    | '}' :: rest1 => if skipWs rest1 = [] then some zeroTemperature else none
    | rest1 =>
      match decodeMembers (2 * data.length + 2) zeroTemperature rest1 with
      | some (d, rest2) => if skipWs rest2 = [] then some d else none
      | none => none
  | 'n' :: 'u' :: 'l' :: 'l' :: rest => if skipWs rest = [] then some zeroTemperature else none
  | _ => none

/-! ## Tracing

A `context.Context` is represented by what the claims need of it: the trace id of the
span it carries, if it carries one. -/

/-- A trace id. -/
abbrev TraceId := Nat

/-- A `context.Context`, as the trace id of its current span. -/
abbrev Context := Option TraceId

/-- The call `otel.GetTextMapPropagator().Extract(ctx, carrier)`: when the request headers
carry a trace context, the returned context carries it as its (remote) span; otherwise
`ctx` is returned as it is. -/
def propagatorExtract (ctx : Context) (carrier : Option TraceId) : Context :=
  match carrier with
  | some t => some t
  | none => ctx

/-- The call `Tracer.Start(ctx, name)`: the new span is a child of the span of `ctx` and
belongs to its trace; without a parent span it is the root of a trace with a new id. -/
def tracerStart (newTraceID : TraceId) (ctx : Context) : Context :=
  some (ctx.getD newTraceID)

/-- The trace id that `otelhttp.Get(c, url)` writes into the headers of the outbound
request: the one of the client span, which it starts from `c`. -/
def injectedTraceId (newTraceID : TraceId) (c : Context) : TraceId :=
  c.getD newTraceID

/-! ## HTTP -/

/-- What `otelhttp.Get` followed by `io.ReadAll(res.Body)` can give: no response at all
(the call returns a `nil` response and an error), a response whose body cannot be read
to its end, or a response with its body. -/
inductive HttpGet
  | noResponse
  | readError (err : GoError)
  | body (b : GoString)
deriving DecidableEq

/-- The run of a Go function: it returns, or it panics. -/
inductive Outcome (α : Type)
  | panic
  | done (a : α)
deriving DecidableEq

/-- An outbound call, as made through `otelhttp.Get(c, url)`. -/
structure Call where
  ctx : Context
  url : GoString
deriving DecidableEq

/-- The outbound calls made by a function, in order, and how it ended. -/
structure Run (α : Type) where
  calls : List Call
  result : Outcome α

/-- What a handler writes to its `http.ResponseWriter`: the status code, the value of the
`Content-Type` header where the handler sets one, and the body. -/
structure Response where
  status : Nat
  contentType : Option GoString
  body : GoString
deriving DecidableEq

/-- The expression building `responseJson`, the same in both services. -/
def responseJson (city celsius fahrenheit kelvin : GoString) : GoString :=
  "\x7b \"city\": \"".toList ++ city ++ "\", \"temp_C\": ".toList ++ celsius ++
    ", \"temp_F\": ".toList ++ fahrenheit ++ ", \"temp_K\": ".toList ++ kelvin ++ " \x7d".toList

/-! ## Service A, the Gateway -/

namespace ServiceA

/-- The type `ZipCodeStruct` of `service_a/main.go`. -/
structure ZipCodeStruct where
  ZipCode : GoString
deriving DecidableEq

/-- What the Gateway handler depends on besides its request: the network, answering its
outbound calls, and the id a trace started here would get. -/
structure Env where
  net : Context → GoString → HttpGet
  newTraceID : TraceId

/-- A request to the Gateway: the context of the request, the trace context of its
headers, and the result of `json.NewDecoder(r.Body).Decode(&req)`, namely the value left
in `req` and the error returned. -/
structure Request where
  ctx : Context
  traceparent : Option TraceId
  req : ZipCodeStruct
  decodeErr : Option GoError

/-- The function `requestGetUrl` of `service_a/main.go`. The error of `otelhttp.Get` is
discarded; without a response `res` is `nil` and `res.Body` panics. -/
def requestGetUrl (env : Env) (c : Context) (url : GoString) :
    Run (Except GoError GoString) :=
  match env.net c url with
  | .noResponse => ⟨[⟨c, url⟩], .panic⟩
  | .readError err => ⟨[⟨c, url⟩], .done (.error err)⟩
  | .body b => ⟨[⟨c, url⟩], .done (.ok b)⟩

/-- The handler `GetTemperature` of `service_a/main.go`. The error of `Decode` is only
logged. -/
def GetTemperature (env : Env) (r : Request) : Run Response :=
  let ctx := propagatorExtract r.ctx r.traceparent
  let ctx := tracerStart env.newTraceID ctx
  match convertZipcode r.req.ZipCode with
  | some _ => ⟨[], .done ⟨422, some "application/text".toList, "invalid zipcode".toList⟩⟩
  | none =>
    match requestGetUrl env ctx ("http://service_b:8081/temperature/".toList ++ r.req.ZipCode) with
    | ⟨calls, .panic⟩ => ⟨calls, .panic⟩
    | ⟨calls, .done (.error _)⟩ =>
      ⟨calls, .done ⟨422, some "application/text".toList, "invalid zipcode".toList⟩⟩
    | ⟨calls, .done (.ok result)⟩ =>
      match jsonUnmarshal result with
      | none =>
        ⟨calls, .done ⟨404, some "application/text".toList, "can not find zipcode".toList⟩⟩
      | some data =>
        if data.City = "".toList then
          ⟨calls, .done ⟨404, some "application/text".toList, "can not find zipcode".toList⟩⟩
        else
          let celsius := FormatFloat data.Celsius
          let fahrenheit := FormatFloat data.Fahrenheit
          let kelvin := FormatFloat data.Kelvin
          ⟨calls, .done ⟨200, some "application/json".toList,
            responseJson data.City celsius fahrenheit kelvin⟩⟩

end ServiceA

/-! ## Service B, the Resolver -/

namespace ServiceB

/-- The type `ViaCEP` of `service_b/main.go`. -/
structure ViaCEP where
  Cep : GoString
  State : GoString
  City : GoString
  Neighborhood : GoString
  Street : GoString
  Complemento : GoString
  Ibge : GoString
  Gia : GoString
  DDD : GoString
  Siafi : GoString

/-- The part `Current` of the type `WeatherApi`, with the one field the program reads. -/
structure WeatherApiCurrent where
  TempC : Float64

/-- The type `WeatherApi` of `service_b/main.go`, with the one part the program reads. -/
structure WeatherApi where
  Current : WeatherApiCurrent

/-- What the Resolver handler depends on besides its request: the network; the results
of `json.Unmarshal` on the bodies of the two providers; the result
of `transform.String` with the chain that removes diacritics (`none` for an error); the
package variable `ApiKey`; and the id a trace started here would get. -/
structure Env where
  net : Context → GoString → HttpGet
  unmarshalViaCEP : GoString → Except GoError ViaCEP
  unmarshalWeatherApi : GoString → Except GoError WeatherApi
  transformString : GoString → Option GoString
  ApiKey : GoString
  newTraceID : TraceId

/-- A request to the Resolver: the context of the request, the trace context of its
headers, and the route variable `zipcode`. -/
structure Request where
  ctx : Context
  traceparent : Option TraceId
  zipcode : GoString

/-- The function `requestGetUrl` of `service_b/main.go`. The error of `otelhttp.Get` is
discarded; without a response `res` is `nil` and `res.Body` panics. -/
def requestGetUrl (env : Env) (c : Context) (url : GoString) :
    Run (Except GoError GoString) :=
  match env.net c url with
  | .noResponse => ⟨[⟨c, url⟩], .panic⟩
  | .readError err => ⟨[⟨c, url⟩], .done (.error err)⟩
  | .body b => ⟨[⟨c, url⟩], .done (.ok b)⟩

/-- The function `convertName` of `service_b/main.go`. -/
def convertName (env : Env) (name : GoString) : GoString :=
  match env.transformString name with
  | none => "".toList
  | some result => stringsReplace result " ".toList "%20".toList (-1)

/-- The function `SearchLocation` of `service_b/main.go`. -/
def SearchLocation (env : Env) (ctx : Context) (cep : GoString) :
    Run (Except GoError GoString) :=
  match requestGetUrl env ctx ("http://viacep.com.br/ws/".toList ++ cep ++ "/json".toList) with
  | ⟨calls, .panic⟩ => ⟨calls, .panic⟩
  | ⟨calls, .done (.error err)⟩ => ⟨calls, .done (.error err)⟩
  | ⟨calls, .done (.ok result)⟩ =>
    match env.unmarshalViaCEP result with
    | .error err => ⟨calls, .done (.error err)⟩
    | .ok data =>
      if data.Cep ≠ "".toList then ⟨calls, .done (.ok data.City)⟩
      else ⟨calls, .done (.error "can not find zipcode".toList)⟩

/-- The function `GetTemperature` of `service_b/main.go`. -/
def GetTemperature (env : Env) (ctx : Context) (city : GoString) :
    Run (Except GoError Float64) :=
  let city := convertName env city
  match requestGetUrl env ctx
      ("http://api.weatherapi.com/v1/current.json?key=".toList ++ env.ApiKey ++ "&q=".toList ++
        city ++ "&aqi=no".toList) with
  | ⟨calls, .panic⟩ => ⟨calls, .panic⟩
  | ⟨calls, .done (.error _)⟩ => ⟨calls, .done (.error "city not found".toList)⟩
  | ⟨calls, .done (.ok result)⟩ =>
    match env.unmarshalWeatherApi result with
    | .error _ => ⟨calls, .done (.error "city not found".toList)⟩
    | .ok u => ⟨calls, .done (.ok u.Current.TempC)⟩

/-- The handler `handlerTemperature` of `service_b/main.go`. -/
def handlerTemperature (env : Env) (r : Request) : Run Response :=
  let ctx := propagatorExtract r.ctx r.traceparent
  let ctx := tracerStart env.newTraceID ctx
  let request := r.zipcode
  match convertZipcode request with
  | .error _ => ⟨[], .done ⟨422, none, "invalid zipcode".toList⟩⟩
  | .ok zipcode =>
    if zipcode = "".toList then ⟨[], .done ⟨422, none, "invalid zipcode".toList⟩⟩
    else
      match SearchLocation env ctx zipcode with
      | ⟨calls, .panic⟩ => ⟨calls, .panic⟩
      | ⟨calls, .done (.error _)⟩ =>
        ⟨calls, .done ⟨404, none, "can not find zipcode".toList⟩⟩
      | ⟨calls, .done (.ok city)⟩ =>
        if city = "".toList then ⟨calls, .done ⟨404, none, "can not find zipcode".toList⟩⟩
        else
          match GetTemperature env ctx city with
          | ⟨calls2, .panic⟩ => ⟨calls ++ calls2, .panic⟩
          | ⟨calls2, .done (.error _)⟩ =>
            ⟨calls ++ calls2, .done ⟨404, none, "can not find zipcode".toList⟩⟩
          | ⟨calls2, .done (.ok response)⟩ =>
            let celsius := FormatFloat response
            let fahrenheit := FormatFloat ((response.mul float1_8).add float32)
            let kelvin := FormatFloat (response.add float273_15)
            ⟨calls ++ calls2, .done ⟨200, some "application/json".toList,
              responseJson city celsius fahrenheit kelvin⟩⟩

end ServiceB

/-- What the Gateway obtains from `otelhttp.Get` and `io.ReadAll` when its request is
served by the Resolver handler with the given run: a panic of the handler closes the
connection without a response; otherwise the body written is received. -/
def replyOf (run : Run Response) : HttpGet :=
  match run.result with
  | .panic => .noResponse
  | .done resp => .body resp.body

/-! ## Scenarios -/

/-- A Gateway environment whose network gives the same answer to every call. -/
def constGatewayEnv (reply : HttpGet) : ServiceA.Env := ⟨fun _ _ => reply, 1⟩

/-- A request to the Gateway without incoming trace context, whose body decoded to the
given postal code. -/
def gatewayRequest (zipcode : GoString) : ServiceA.Request := ⟨none, none, ⟨zipcode⟩, none⟩

/-- A request to the Gateway whose body `{"cep":"01310100","cep":5}` is not decoded without
error: `Decode` stores the first member in `req`, skips the second, which is a number, and
returns an error of type `UnmarshalTypeError`. -/
def halfDecodedRequest : ServiceA.Request :=
  ⟨none, none, ⟨"01310100".toList⟩,
    some ("json: cannot unmarshal number into Go struct field ZipCodeStruct.cep of type " ++
      "string").toList⟩

/-- The body of a report for São Paulo at 23.4 degrees Celsius. -/
def saoPauloBody : GoString :=
  "\x7b \"city\": \"São Paulo\", \"temp_C\": 23.4, \"temp_F\": 74.1, \"temp_K\": 296.5 \x7d".toList

/-- A request to the Resolver without incoming trace context. -/
def resolverRequest (zipcode : GoString) : ServiceB.Request := ⟨none, none, zipcode⟩

/-- The value `json.Unmarshal` leaves in a `ViaCEP` when the provider answers
`{"erro": true}`, its reply for a postal code it does not know. -/
def emptyViaCEP : ServiceB.ViaCEP := ⟨[], [], [], [], [], [], [], [], [], []⟩

/-- A Resolver environment in which the geocoding provider does not know the postal
code. -/
def unknownCepEnv : ServiceB.Env where
  net := fun _ _ => .body "\x7b\"erro\": true\x7d".toList
  unmarshalViaCEP := fun _ => .ok emptyViaCEP
  unmarshalWeatherApi := fun _ => .error "unexpected end of JSON input".toList
  transformString := some
  ApiKey := "key".toList
  newTraceID := 2

/-- The record of the geocoding provider for the postal code 01310-100. -/
def paulistaViaCEP : ServiceB.ViaCEP :=
  ⟨"01310-100".toList, "SP".toList, "São Paulo".toList, "Bela Vista".toList,
    "Avenida Paulista".toList, "".toList, "3550308".toList, "1004".toList, "11".toList,
    "7107".toList⟩

/-- A Resolver environment in which the geocoding provider knows the postal code
01310-100 as São Paulo and the weather provider reports the given temperature. -/
def saoPauloEnv (tempC : Float64) : ServiceB.Env where
  net := fun _ url =>
    if url = "http://viacep.com.br/ws/01310100/json".toList then .body "viacep".toList
    else .body "weatherapi".toList
  unmarshalViaCEP := fun b =>
    if b = "viacep".toList then .ok paulistaViaCEP else .error "invalid character".toList
  unmarshalWeatherApi := fun b =>
    if b = "weatherapi".toList then .ok ⟨⟨tempC⟩⟩ else .error "invalid character".toList
  transformString := fun _ => some "Sao Paulo".toList
  ApiKey := "key".toList
  newTraceID := 2

/-- A Gateway environment whose outbound calls are served by the Resolver handler in the
given environment: the route variable is what follows "http://service_b:8081/temperature/"
in the URL, and the request carries the trace id injected by the call. -/
def chainedGatewayEnv (envB : ServiceB.Env) : ServiceA.Env where
  net := fun c url =>
    replyOf (ServiceB.handlerTemperature envB ⟨none, some (injectedTraceId 1 c), url.drop 34⟩)
  newTraceID := 1

/-- A record of the geocoding provider whose city name contains double quotes. -/
def quotedCityViaCEP : ServiceB.ViaCEP :=
  { paulistaViaCEP with City := "Santa \"Rita\"".toList }

/-- A Resolver environment in which the geocoding provider answers with a city name that
contains double quotes, and the weather provider reports 23.4 degrees Celsius. -/
def quotedCityEnv : ServiceB.Env :=
  { saoPauloEnv (roundToFloat64 false 234 10) with
    unmarshalViaCEP := fun _ => .ok quotedCityViaCEP
    transformString := some }

set_option maxRecDepth 100000
set_option exponentiation.threshold 4000

/-! ## Lemmas on strings -/

theorem stringsReplaceAux_zero (old new : GoString) (s : GoString) :
    stringsReplaceAux old new s 0 0 = s := by
  induction s with
  | nil => rfl
  | cons c cs ih => simp [stringsReplaceAux, ih]

theorem stringsReplace_hyphen_of_not_mem (s : GoString) (h : '-' ∉ s) :
    stringsReplace s "-".toList "".toList 1 = s := by
  show stringsReplaceAux ['-'] [] s 1 0 = s
  induction s with
  | nil => rfl
  | cons c cs ih =>
    have hc : c ≠ '-' := fun e => h (by simp [e])
    have hcs : '-' ∉ cs := fun e => h (by simp [e])
    have hne : ('-' == c) = false := by
      simpa using fun e : '-' = c => hc e.symm
    simp [stringsReplaceAux, List.isPrefixOf, hne, ih hcs]

theorem stringsReplace_hyphen_append (pre post : GoString) (h : '-' ∉ pre) :
    stringsReplace (pre ++ '-' :: post) "-".toList "".toList 1 = pre ++ post := by
  show stringsReplaceAux ['-'] [] (pre ++ '-' :: post) 1 0 = pre ++ post
  induction pre with
  | nil => simp [stringsReplaceAux, List.isPrefixOf, stringsReplaceAux_zero]
  | cons c cs ih =>
    have hc : c ≠ '-' := fun e => h (by simp [e])
    have hcs : '-' ∉ cs := fun e => h (by simp [e])
    have hne : ('-' == c) = false := by
      simpa using fun e : '-' = c => hc e.symm
    simp [stringsReplaceAux, List.isPrefixOf, hne, ih hcs]

theorem stringsReplace_hyphen_eq (s t : GoString) (h : IsFirstHyphenRemoved s t) :
    stringsReplace s "-".toList "".toList 1 = t := by
  rcases h with ⟨hs, rfl⟩ | ⟨pre, post, hpre, rfl, rfl⟩
  · exact stringsReplace_hyphen_of_not_mem _ hs
  · exact stringsReplace_hyphen_append pre post hpre

theorem regexpMatchDigit_iff (s : GoString) :
    regexpMatchDigit s = true ↔ ∃ c ∈ s, c.isDigit = true := by
  simp [regexpMatchDigit, List.any_eq_true]

theorem len_cons (c : Char) (s : GoString) : len (c :: s) = c.utf8Size + len s := by
  simp [len]

theorem len_ne_of_nil {z : GoString} (h : len z = 8) : z ≠ [] := by
  intro e
  rw [e] at h
  simp [len] at h

theorem convertZipcodeB_eq (s : GoString) :
    ServiceB.convertZipcode s =
      if regexpMatchDigit (stringsReplace s "-".toList "".toList 1) = true ∧
          len (stringsReplace s "-".toList "".toList 1) = 8 then
        .ok (stringsReplace s "-".toList "".toList 1)
      else .error "invalid zipcode".toList := by
  unfold ServiceB.convertZipcode
  generalize stringsReplace s "-".toList "".toList 1 = z
  by_cases h1 : regexpMatchDigit z = true
  · by_cases h2 : len z = 8
    · simp [h1, h2, len_ne_of_nil h2]
    · simp [h1, h2]
  · simp [h1]

theorem convertZipcodeA_eq (s : GoString) :
    ServiceA.convertZipcode s =
      if regexpMatchDigit (stringsReplace s "-".toList "".toList 1) = true ∧
          len (stringsReplace s "-".toList "".toList 1) = 8 then
        none
      else some "invalid zipcode".toList := by
  unfold ServiceA.convertZipcode
  generalize stringsReplace s "-".toList "".toList 1 = z
  by_cases h1 : regexpMatchDigit z = true
  · by_cases h2 : len z = 8
    · simp [h1, h2, len_ne_of_nil h2]
    · simp [h1, h2]
  · simp [h1]

theorem convertZipcodeB_ne_nil {s z : GoString} (h : ServiceB.convertZipcode s = .ok z) :
    z ≠ [] := by
  rw [convertZipcodeB_eq] at h
  split at h
  · rename_i hc
    injection h with h
    rw [← h]
    exact len_ne_of_nil hc.2
  · cases h

/-! ## The claims on the validator -/

/-- C3 (hyphen stripping). Let `t` be `s` with its first hyphen, if any, removed. The
validator of service_b succeeds exactly when `t` has length 8 and contains an ASCII digit,
and then returns `t`; the validator of service_a succeeds on exactly the same inputs; and
"01310-100" is normalised to "01310100", as "01310100" is. -/
theorem hyphen_stripping (s t : GoString) (h : IsFirstHyphenRemoved s t) :
    ((∃ z, ServiceB.convertZipcode s = .ok z) ↔ (len t = 8 ∧ ∃ c ∈ t, c.isDigit = true)) ∧
    (∀ z, ServiceB.convertZipcode s = .ok z → z = t) ∧
    (ServiceA.convertZipcode s = none ↔ ∃ z, ServiceB.convertZipcode s = .ok z) ∧
    ServiceB.convertZipcode "01310-100".toList = .ok "01310100".toList ∧
    ServiceB.convertZipcode "01310100".toList = .ok "01310100".toList ∧
    ServiceA.convertZipcode "01310-100".toList = none ∧
    ServiceA.convertZipcode "01310100".toList = none := by
  have e := stringsReplace_hyphen_eq s t h
  have hd := regexpMatchDigit_iff t
  have hB := convertZipcodeB_eq s
  have hA := convertZipcodeA_eq s
  rw [e] at hB hA
  refine ⟨?_, ?_, ?_, rfl, rfl, by decide, by decide⟩
  · rw [hB]
    by_cases hc : regexpMatchDigit t = true ∧ len t = 8
    · rw [if_pos hc]
      exact ⟨fun _ => ⟨hc.2, hd.1 hc.1⟩, fun _ => ⟨t, rfl⟩⟩
    · rw [if_neg hc]
      constructor
      · rintro ⟨z, hz⟩
        cases hz
      · rintro ⟨h8, hdig⟩
        exact absurd ⟨hd.2 hdig, h8⟩ hc
  · intro z hz
    rw [hB] at hz
    by_cases hc : regexpMatchDigit t = true ∧ len t = 8
    · rw [if_pos hc] at hz
      injection hz with hz
      exact hz.symm
    · rw [if_neg hc] at hz
      cases hz
  · rw [hA, hB]
    by_cases hc : regexpMatchDigit t = true ∧ len t = 8
    · rw [if_pos hc, if_pos hc]
      exact ⟨fun _ => ⟨t, rfl⟩, fun _ => rfl⟩
    · rw [if_neg hc, if_neg hc]
      constructor
      · intro hz
        cases hz
      · rintro ⟨z, hz⟩
        cases hz

/-- Witness of `hyphen_stripping` at "01310-100". -/
theorem hyphen_stripping_witness :
    ServiceB.convertZipcode "01310-100".toList = .ok "01310100".toList ∧
    (ServiceA.convertZipcode "01310-100".toList = none ↔
      ∃ z, ServiceB.convertZipcode "01310-100".toList = .ok z) :=
  have h : IsFirstHyphenRemoved "01310-100".toList "01310100".toList :=
    Or.inr ⟨"01310".toList, "100".toList, by decide, by decide, by decide⟩
  ⟨(hyphen_stripping _ _ h).2.2.2.1, (hyphen_stripping _ _ h).2.2.1⟩

theorem exists_firstHyphenRemoved (s : GoString) :
    ∃ t, IsFirstHyphenRemoved s t ∧ (('-' ∉ s ∧ t = s) ∨ ('-' ∈ s ∧ len s = len t + 1)) := by
  induction s with
  | nil => exact ⟨[], Or.inl ⟨by simp, rfl⟩, Or.inl ⟨by simp, rfl⟩⟩
  | cons c cs ih =>
    by_cases hc : c = '-'
    · subst hc
      refine ⟨cs, Or.inr ⟨[], cs, by simp, rfl, rfl⟩, Or.inr ⟨by simp, ?_⟩⟩
      rw [len_cons]
      have : Char.utf8Size '-' = 1 := by decide
      omega
    · obtain ⟨t, ht, hlen⟩ := ih
      have hne : ¬ '-' = c := fun e => hc e.symm
      rcases ht with ⟨hmem, rfl⟩ | ⟨pre, post, hpre, rfl, rfl⟩
      · exact ⟨c :: t, Or.inl ⟨by simp [hmem, hne], rfl⟩, Or.inl ⟨by simp [hmem, hne], rfl⟩⟩
      · refine ⟨c :: (pre ++ post), Or.inr ⟨c :: pre, post, by simp [hpre, hne], rfl, rfl⟩,
          Or.inr ⟨by simp, ?_⟩⟩
        rcases hlen with ⟨hmem, _⟩ | ⟨_, hl⟩
        · exact absurd (by simp) hmem
        · rw [len_cons, len_cons, hl]
          omega

/-- C4, as the claim states it, fails on the code. "1234-678" has exactly 8 characters
and contains digits, but both validators reject it; "01310-100" does not have length 8,
but both validators accept it. -/
theorem length_rule_counterexample :
    (len "1234-678".toList = 8 ∧ "1234-678".toList.length = 8 ∧
      (∃ c ∈ "1234-678".toList, c.isDigit = true) ∧
      ServiceB.convertZipcode "1234-678".toList = .error "invalid zipcode".toList ∧
      ServiceA.convertZipcode "1234-678".toList = some "invalid zipcode".toList) ∧
    (len "01310-100".toList ≠ 8 ∧ "01310-100".toList.length ≠ 8 ∧
      ServiceB.convertZipcode "01310-100".toList = .ok "01310100".toList ∧
      ServiceA.convertZipcode "01310-100".toList = none) :=
  ⟨⟨by decide, by decide, by decide, rfl, by decide⟩, by decide, by decide, rfl, by decide⟩

/-- C4, amended. Every string of exactly 8 bytes that contains a digit and no hyphen is
accepted by both validators (service_b returns it unchanged); every string whose length
is not 8 is rejected with the error "invalid zipcode" by both, unless it has length 9 and
contains a hyphen. -/
theorem length_rule (s : GoString) :
    (len s = 8 → (∃ c ∈ s, c.isDigit = true) → '-' ∉ s →
      ServiceB.convertZipcode s = .ok s ∧ ServiceA.convertZipcode s = none) ∧
    (len s ≠ 8 → ¬ (len s = 9 ∧ '-' ∈ s) →
      ServiceB.convertZipcode s = .error "invalid zipcode".toList ∧
      ServiceA.convertZipcode s = some "invalid zipcode".toList) := by
  obtain ⟨t, ht, hlen⟩ := exists_firstHyphenRemoved s
  have e := stringsReplace_hyphen_eq s t ht
  rw [convertZipcodeB_eq, convertZipcodeA_eq, e]
  constructor
  · intro h8 hdig hmem
    rcases hlen with ⟨_, rfl⟩ | ⟨hin, _⟩
    · have hc : regexpMatchDigit t = true ∧ len t = 8 := ⟨(regexpMatchDigit_iff t).2 hdig, h8⟩
      rw [if_pos hc, if_pos hc]
      exact ⟨rfl, rfl⟩
    · exact absurd hin hmem
  · intro h8 h9
    have hc : ¬ (regexpMatchDigit t = true ∧ len t = 8) := by
      rintro ⟨_, ht8⟩
      rcases hlen with ⟨_, rfl⟩ | ⟨hin, hl⟩
      · exact h8 ht8
      · exact h9 ⟨by omega, hin⟩
    rw [if_neg hc, if_neg hc]
    exact ⟨rfl, rfl⟩

/-- Witness of `length_rule`: "01310100" is accepted, "123" is rejected. -/
theorem length_rule_witness :
    (ServiceB.convertZipcode "01310100".toList = .ok "01310100".toList ∧
      ServiceA.convertZipcode "01310100".toList = none) ∧
    (ServiceB.convertZipcode "123".toList = .error "invalid zipcode".toList ∧
      ServiceA.convertZipcode "123".toList = some "invalid zipcode".toList) :=
  ⟨(length_rule "01310100".toList).1 (by decide) (by decide) (by decide),
   (length_rule "123".toList).2 (by decide) (by decide)⟩

/-! ## Lemmas on the handlers -/

theorem requestGetUrlA_calls (env : ServiceA.Env) (c : Context) (url : GoString) :
    (ServiceA.requestGetUrl env c url).calls = [⟨c, url⟩] := by
  unfold ServiceA.requestGetUrl
  cases env.net c url <;> rfl

theorem requestGetUrlB_calls (env : ServiceB.Env) (c : Context) (url : GoString) :
    (ServiceB.requestGetUrl env c url).calls = [⟨c, url⟩] := by
  unfold ServiceB.requestGetUrl
  cases env.net c url <;> rfl

theorem SearchLocation_calls (env : ServiceB.Env) (ctx : Context) (cep : GoString) :
    (ServiceB.SearchLocation env ctx cep).calls =
      [⟨ctx, "http://viacep.com.br/ws/".toList ++ cep ++ "/json".toList⟩] := by
  unfold ServiceB.SearchLocation ServiceB.requestGetUrl
  cases env.net ctx ("http://viacep.com.br/ws/".toList ++ cep ++ "/json".toList) with
  | noResponse => rfl
  | readError err => rfl
  | body b =>
    dsimp only
    cases env.unmarshalViaCEP b with
    | error err => rfl
    | ok data =>
      dsimp only
      split <;> rfl

theorem GetTemperatureB_calls (env : ServiceB.Env) (ctx : Context) (city : GoString) :
    (ServiceB.GetTemperature env ctx city).calls =
      [⟨ctx, "http://api.weatherapi.com/v1/current.json?key=".toList ++ env.ApiKey ++
        "&q=".toList ++ ServiceB.convertName env city ++ "&aqi=no".toList⟩] := by
  unfold ServiceB.GetTemperature ServiceB.requestGetUrl
  dsimp only
  cases env.net ctx ("http://api.weatherapi.com/v1/current.json?key=".toList ++ env.ApiKey ++
        "&q=".toList ++ ServiceB.convertName env city ++ "&aqi=no".toList) with
  | noResponse => rfl
  | readError err => rfl
  | body b =>
    dsimp only
    cases env.unmarshalWeatherApi b with
    | error err => rfl
    | ok data => rfl

theorem handlerTemperature_calls (env : ServiceB.Env) (r : ServiceB.Request) (z : GoString)
    (h : ServiceB.convertZipcode r.zipcode = .ok z) :
    ∃ rest, (ServiceB.handlerTemperature env r).calls =
      ⟨tracerStart env.newTraceID (propagatorExtract r.ctx r.traceparent),
        "http://viacep.com.br/ws/".toList ++ z ++ "/json".toList⟩ :: rest ∧
      ∀ c ∈ rest, c.ctx = tracerStart env.newTraceID (propagatorExtract r.ctx r.traceparent) := by
  have hz : z ≠ [] := convertZipcodeB_ne_nil h
  have hs := SearchLocation_calls env (tracerStart env.newTraceID
    (propagatorExtract r.ctx r.traceparent)) z
  unfold ServiceB.handlerTemperature
  simp only [h]
  rw [if_neg (by simpa using hz)]
  generalize ServiceB.SearchLocation env _ z = sl at hs ⊢
  obtain ⟨calls, res⟩ := sl
  simp only at hs
  subst hs
  match res with
  | .panic => exact ⟨[], rfl, by simp⟩
  | .done (.error _) => exact ⟨[], rfl, by simp⟩
  | .done (.ok city) =>
    dsimp only
    split
    · exact ⟨[], rfl, by simp⟩
    · have hg := GetTemperatureB_calls env (tracerStart env.newTraceID
        (propagatorExtract r.ctx r.traceparent)) city
      generalize ServiceB.GetTemperature env _ city = gt at hg ⊢
      obtain ⟨calls2, res2⟩ := gt
      simp only at hg
      subst hg
      match res2 with
      | .panic => exact ⟨_, rfl, by simp⟩
      | .done (.error _) => exact ⟨_, rfl, by simp⟩
      | .done (.ok t) => exact ⟨_, rfl, by simp⟩

/-- C5, as the claim states it, fails on the code: the validator of service_b accepts
"1234567a" and returns it, although it does not consist of digits only. -/
theorem normalized_code_counterexample :
    ServiceB.convertZipcode "1234567a".toList = .ok "1234567a".toList ∧
    ¬ (∀ c ∈ "1234567a".toList, c.isDigit = true) :=
  ⟨rfl, by decide⟩

/-- C5, amended. Whenever the validator of service_b succeeds, the string it returns is
the input without its first hyphen, has length exactly 8 and contains at least one ASCII
digit; and it is the key of the geocoding lookup, the first outbound call of the Resolver
handler. -/
theorem normalized_code (s z : GoString) (h : ServiceB.convertZipcode s = .ok z) :
    len z = 8 ∧ (∃ c ∈ z, c.isDigit = true) ∧ IsFirstHyphenRemoved s z ∧
    ∀ (env : ServiceB.Env) (r : ServiceB.Request), r.zipcode = s →
      ∃ rest, (ServiceB.handlerTemperature env r).calls =
        ⟨tracerStart env.newTraceID (propagatorExtract r.ctx r.traceparent),
          "http://viacep.com.br/ws/".toList ++ z ++ "/json".toList⟩ :: rest := by
  obtain ⟨t, ht, _⟩ := exists_firstHyphenRemoved s
  have e := stringsReplace_hyphen_eq s t ht
  have h' := h
  rw [convertZipcodeB_eq, e] at h'
  split at h'
  · rename_i hc
    injection h' with h'
    subst h'
    refine ⟨hc.2, (regexpMatchDigit_iff _).1 hc.1, ht, ?_⟩
    intro env r hr
    subst hr
    obtain ⟨rest, hrest, _⟩ := handlerTemperature_calls env r _ h
    exact ⟨rest, hrest⟩
  · cases h'

/-- Witness of `normalized_code` at "01310-100". -/
theorem normalized_code_witness :
    len "01310100".toList = 8 ∧ (∃ c ∈ "01310100".toList, c.isDigit = true) :=
  ⟨(normalized_code "01310-100".toList "01310100".toList rfl).1,
   (normalized_code "01310-100".toList "01310100".toList rfl).2.1⟩

/-! ## The claims on the Gateway -/

/-- C1, as the claim states it, fails on the code. A body that `Decode` rejects with an
error but from which it has taken the postal code "01310100" is not answered 422: the
error is only logged, the Resolver is called, and its report is answered 200. And a
request with the valid postal code "01310100" is answered 422 "invalid zipcode" when the
body of the Resolver's response cannot be read, although the postal code passes
`convertZipcode`. -/
theorem gateway_decision_table_counterexample :
    halfDecodedRequest.decodeErr ≠ none ∧
    ServiceA.GetTemperature (constGatewayEnv (.body saoPauloBody)) halfDecodedRequest =
      ⟨[⟨some 1, "http://service_b:8081/temperature/01310100".toList⟩],
        .done ⟨200, some "application/json".toList, saoPauloBody⟩⟩ ∧
    ServiceA.convertZipcode (gatewayRequest "01310100".toList).req.ZipCode = none ∧
    ServiceA.GetTemperature (constGatewayEnv (.readError "unexpected EOF".toList))
        (gatewayRequest "01310100".toList) =
      ⟨[⟨some 1, "http://service_b:8081/temperature/01310100".toList⟩],
        .done ⟨422, some "application/text".toList, "invalid zipcode".toList⟩⟩ :=
  ⟨by decide, rfl, by decide, rfl⟩

/-- C1, amended. The error of decoding the request body is only logged: the handler
decides on the postal code the decoding leaves in the request (the empty one when nothing
was decoded). If that postal code fails `convertZipcode`, the Gateway answers 422
"invalid zipcode" and makes no outbound call. Otherwise it makes one call, to the
Resolver, and whenever that call obtains a response the handler answers: 422 "invalid
zipcode" if the body of the response cannot be read; 404 "can not find zipcode" if the
body does not parse as a temperature report or parses with an empty city; otherwise 200
with the city and the three temperatures, each formatted with one decimal place. In all
these runs a response is written, and it is one of the three. -/
theorem gateway_decision_table (env : ServiceA.Env) (r : ServiceA.Request) :
    (ServiceA.convertZipcode r.req.ZipCode ≠ none →
      ServiceA.GetTemperature env r =
        ⟨[], .done ⟨422, some "application/text".toList, "invalid zipcode".toList⟩⟩) ∧
    (r.req.ZipCode = "".toList →
      ServiceA.GetTemperature env r =
        ⟨[], .done ⟨422, some "application/text".toList, "invalid zipcode".toList⟩⟩) ∧
    (∀ e, ServiceA.GetTemperature env { r with decodeErr := e } =
      ServiceA.GetTemperature env r) ∧
    (ServiceA.convertZipcode r.req.ZipCode = none →
      (∀ err : GoError,
        env.net (tracerStart env.newTraceID (propagatorExtract r.ctx r.traceparent))
          ("http://service_b:8081/temperature/".toList ++ r.req.ZipCode) = .readError err →
        ServiceA.GetTemperature env r =
          ⟨[⟨tracerStart env.newTraceID (propagatorExtract r.ctx r.traceparent),
              "http://service_b:8081/temperature/".toList ++ r.req.ZipCode⟩],
            .done ⟨422, some "application/text".toList, "invalid zipcode".toList⟩⟩) ∧
      (∀ b : GoString,
        env.net (tracerStart env.newTraceID (propagatorExtract r.ctx r.traceparent))
          ("http://service_b:8081/temperature/".toList ++ r.req.ZipCode) = .body b →
        ((jsonUnmarshal b = none ∨ ∃ d, jsonUnmarshal b = some d ∧ d.City = "".toList) →
          ServiceA.GetTemperature env r =
            ⟨[⟨tracerStart env.newTraceID (propagatorExtract r.ctx r.traceparent),
                "http://service_b:8081/temperature/".toList ++ r.req.ZipCode⟩],
              .done ⟨404, some "application/text".toList, "can not find zipcode".toList⟩⟩) ∧
        (∀ d, jsonUnmarshal b = some d → d.City ≠ "".toList →
          ServiceA.GetTemperature env r =
            ⟨[⟨tracerStart env.newTraceID (propagatorExtract r.ctx r.traceparent),
                "http://service_b:8081/temperature/".toList ++ r.req.ZipCode⟩],
              .done ⟨200, some "application/json".toList,
                responseJson d.City (FormatFloat d.Celsius) (FormatFloat d.Fahrenheit)
                  (FormatFloat d.Kelvin)⟩⟩))) ∧
    ((ServiceA.convertZipcode r.req.ZipCode ≠ none ∨
        env.net (tracerStart env.newTraceID (propagatorExtract r.ctx r.traceparent))
          ("http://service_b:8081/temperature/".toList ++ r.req.ZipCode) ≠ .noResponse) →
      ∃ resp, (ServiceA.GetTemperature env r).result = .done resp ∧
        (resp = ⟨422, some "application/text".toList, "invalid zipcode".toList⟩ ∨
         resp = ⟨404, some "application/text".toList, "can not find zipcode".toList⟩ ∨
         ∃ d : TemperatureStruct, d.City ≠ "".toList ∧
           resp = ⟨200, some "application/json".toList,
             responseJson d.City (FormatFloat d.Celsius) (FormatFloat d.Fahrenheit)
               (FormatFloat d.Kelvin)⟩)) := by
  refine ⟨?_, ?_, fun _ => rfl, ?_, ?_⟩
  · intro h
    unfold ServiceA.GetTemperature
    cases hz : ServiceA.convertZipcode r.req.ZipCode with
    | none => exact absurd hz h
    | some e => rfl
  · intro h
    unfold ServiceA.GetTemperature
    rw [h]
    rfl
  · intro hz
    refine ⟨?_, ?_⟩
    · intro err hnet
      unfold ServiceA.GetTemperature ServiceA.requestGetUrl
      simp only [hz, hnet]
    · intro b hnet
      constructor
      · intro hb
        unfold ServiceA.GetTemperature ServiceA.requestGetUrl
        simp only [hz, hnet]
        rcases hb with hb | ⟨d, hb, hd⟩
        · simp only [hb]
        · simp only [hb, hd, if_true]
      · intro d hb hd
        unfold ServiceA.GetTemperature ServiceA.requestGetUrl
        simp only [hz, hnet, hb, if_neg hd]
  · intro h
    unfold ServiceA.GetTemperature ServiceA.requestGetUrl
    cases hz : ServiceA.convertZipcode r.req.ZipCode with
    | some e => exact ⟨_, rfl, Or.inl rfl⟩
    | none =>
      dsimp only
      cases hnet : env.net (tracerStart env.newTraceID (propagatorExtract r.ctx r.traceparent))
        ("http://service_b:8081/temperature/".toList ++ r.req.ZipCode) with
      | noResponse =>
        rcases h with h | h
        · exact absurd hz h
        · exact absurd hnet h
      | readError err => exact ⟨_, rfl, Or.inl rfl⟩
      | body b =>
        dsimp only
        cases jsonUnmarshal b with
        | none => exact ⟨_, rfl, Or.inr (Or.inl rfl)⟩
        | some d =>
          dsimp only
          by_cases hd : d.City = "".toList
          · rw [if_pos hd]
            exact ⟨_, rfl, Or.inr (Or.inl rfl)⟩
          · rw [if_neg hd]
            exact ⟨_, rfl, Or.inr (Or.inr ⟨d, hd, rfl⟩)⟩

/-- Witness of `gateway_decision_table`: the postal code "123" is answered 422 without
any outbound call; for "01310100", a response whose body cannot be read is answered 422,
a Resolver body "can not find zipcode" is answered 404, and a Resolver body reporting
São Paulo is answered 200 with the same report. -/
theorem gateway_decision_table_witness :
    ServiceA.GetTemperature (constGatewayEnv .noResponse) (gatewayRequest "123".toList) =
      ⟨[], .done ⟨422, some "application/text".toList, "invalid zipcode".toList⟩⟩ ∧
    ServiceA.GetTemperature (constGatewayEnv (.readError "unexpected EOF".toList))
        (gatewayRequest "01310100".toList) =
      ⟨[⟨some 1, "http://service_b:8081/temperature/01310100".toList⟩],
        .done ⟨422, some "application/text".toList, "invalid zipcode".toList⟩⟩ ∧
    ServiceA.GetTemperature (constGatewayEnv (.body "can not find zipcode".toList))
        (gatewayRequest "01310100".toList) =
      ⟨[⟨some 1, "http://service_b:8081/temperature/01310100".toList⟩],
        .done ⟨404, some "application/text".toList, "can not find zipcode".toList⟩⟩ ∧
    ServiceA.GetTemperature (constGatewayEnv (.body saoPauloBody))
        (gatewayRequest "01310100".toList) =
      ⟨[⟨some 1, "http://service_b:8081/temperature/01310100".toList⟩],
        .done ⟨200, some "application/json".toList, saoPauloBody⟩⟩ ∧
    ∃ resp, (ServiceA.GetTemperature (constGatewayEnv (.body saoPauloBody))
        (gatewayRequest "01310100".toList)).result = .done resp :=
  ⟨(gateway_decision_table (constGatewayEnv .noResponse) (gatewayRequest "123".toList)).1
      (by decide),
   ((gateway_decision_table (constGatewayEnv (.readError "unexpected EOF".toList))
      (gatewayRequest "01310100".toList)).2.2.2.1 (by decide)).1 _ rfl,
   ((((gateway_decision_table (constGatewayEnv (.body "can not find zipcode".toList))
      (gatewayRequest "01310100".toList)).2.2.2.1 (by decide)).2 _ rfl).1
      (Or.inl (by decide))),
   ((((gateway_decision_table (constGatewayEnv (.body saoPauloBody))
      (gatewayRequest "01310100".toList)).2.2.2.1 (by decide)).2 _ rfl).2
      ⟨"São Paulo".toList, ParseFloat ⟨false, "23".toList, "4".toList, 0⟩,
        ParseFloat ⟨false, "74".toList, "1".toList, 0⟩,
        ParseFloat ⟨false, "296".toList, "5".toList, 0⟩⟩ (by decide) (by decide)),
   ((gateway_decision_table (constGatewayEnv (.body saoPauloBody))
      (gatewayRequest "01310100".toList)).2.2.2.2 (Or.inr (by decide))).imp
      (fun _ h => h.1)⟩

theorem gateway_noResponse_panics (env : ServiceA.Env) (r : ServiceA.Request)
    (hz : ServiceA.convertZipcode r.req.ZipCode = none)
    (hnet : env.net (tracerStart env.newTraceID (propagatorExtract r.ctx r.traceparent))
        ("http://service_b:8081/temperature/".toList ++ r.req.ZipCode) = .noResponse) :
    (ServiceA.GetTemperature env r).result = .panic := by
  unfold ServiceA.GetTemperature ServiceA.requestGetUrl
  simp only [hz, hnet]

/-- C2, evaluated on the code: with the valid postal code "01310100" and a Resolver that
cannot be reached (`otelhttp.Get` returns no response), `requestGetUrl` dereferences the
`nil` response and the Gateway handler panics: it writes no response, although it made
the outbound call. -/
theorem gateway_transport_failure_panics :
    ServiceA.convertZipcode "01310100".toList = none ∧
    (ServiceA.GetTemperature (constGatewayEnv .noResponse)
      (gatewayRequest "01310100".toList)).result = .panic ∧
    (ServiceA.GetTemperature (constGatewayEnv .noResponse)
      (gatewayRequest "01310100".toList)).calls =
      [⟨some 1, "http://service_b:8081/temperature/01310100".toList⟩] :=
  ⟨by decide, by decide, by decide⟩

/-! ## The claims on the Resolver -/

theorem gateway_notFound_of_body (envA : ServiceA.Env) (rA : ServiceA.Request)
    (hz : ServiceA.convertZipcode rA.req.ZipCode = none)
    (hnet : envA.net (tracerStart envA.newTraceID (propagatorExtract rA.ctx rA.traceparent))
        ("http://service_b:8081/temperature/".toList ++ rA.req.ZipCode) =
        .body "can not find zipcode".toList) :
    (ServiceA.GetTemperature envA rA).result =
      .done ⟨404, some "application/text".toList, "can not find zipcode".toList⟩ := by
  have hb : jsonUnmarshal "can not find zipcode".toList = none := by decide
  unfold ServiceA.GetTemperature ServiceA.requestGetUrl
  simp only [hz, hnet, hb]

/-- C9 (unknown location). For a request to the Resolver with a valid postal code:
if the reply of the geocoding provider has an empty postal-code field, `SearchLocation`
fails with the error "can not find zipcode"; and if `SearchLocation` fails or yields an
empty city, the Resolver handler answers 404 "can not find zipcode" having made the
geocoding call only, and a Gateway handler that receives this response answers 404
"can not find zipcode". -/
theorem unknown_location (envB : ServiceB.Env) (rB : ServiceB.Request) (zipcode : GoString)
    (hvalid : ServiceB.convertZipcode rB.zipcode = .ok zipcode) :
    (∀ result data,
      envB.net (tracerStart envB.newTraceID (propagatorExtract rB.ctx rB.traceparent))
        ("http://viacep.com.br/ws/".toList ++ zipcode ++ "/json".toList) = .body result →
      envB.unmarshalViaCEP result = .ok data → data.Cep = "".toList →
      (ServiceB.SearchLocation envB
        (tracerStart envB.newTraceID (propagatorExtract rB.ctx rB.traceparent)) zipcode).result =
        .done (.error "can not find zipcode".toList)) ∧
    (((∃ err, (ServiceB.SearchLocation envB
        (tracerStart envB.newTraceID (propagatorExtract rB.ctx rB.traceparent)) zipcode).result =
          .done (.error err)) ∨
      (ServiceB.SearchLocation envB
        (tracerStart envB.newTraceID (propagatorExtract rB.ctx rB.traceparent)) zipcode).result =
          .done (.ok "".toList)) →
      ServiceB.handlerTemperature envB rB =
        ⟨[⟨tracerStart envB.newTraceID (propagatorExtract rB.ctx rB.traceparent),
            "http://viacep.com.br/ws/".toList ++ zipcode ++ "/json".toList⟩],
          .done ⟨404, none, "can not find zipcode".toList⟩⟩ ∧
      ∀ (envA : ServiceA.Env) (rA : ServiceA.Request),
        ServiceA.convertZipcode rA.req.ZipCode = none →
        envA.net (tracerStart envA.newTraceID (propagatorExtract rA.ctx rA.traceparent))
          ("http://service_b:8081/temperature/".toList ++ rA.req.ZipCode) =
          replyOf (ServiceB.handlerTemperature envB rB) →
        (ServiceA.GetTemperature envA rA).result =
          .done ⟨404, some "application/text".toList, "can not find zipcode".toList⟩) := by
  constructor
  · intro result data hnet hun hcep
    unfold ServiceB.SearchLocation ServiceB.requestGetUrl
    simp only [hnet, hun, hcep]
    rfl
  · intro hfail
    have hz : zipcode ≠ [] := convertZipcodeB_ne_nil hvalid
    have hs := SearchLocation_calls envB (tracerStart envB.newTraceID
      (propagatorExtract rB.ctx rB.traceparent)) zipcode
    have hB : ServiceB.handlerTemperature envB rB =
        ⟨[⟨tracerStart envB.newTraceID (propagatorExtract rB.ctx rB.traceparent),
            "http://viacep.com.br/ws/".toList ++ zipcode ++ "/json".toList⟩],
          .done ⟨404, none, "can not find zipcode".toList⟩⟩ := by
      unfold ServiceB.handlerTemperature
      simp only [hvalid]
      rw [if_neg (by simpa using hz)]
      generalize ServiceB.SearchLocation envB _ zipcode = sl at hs hfail ⊢
      obtain ⟨calls, res⟩ := sl
      simp only at hs hfail
      subst hs
      rcases hfail with ⟨err, rfl⟩ | rfl
      · rfl
      · rfl
    refine ⟨hB, ?_⟩
    intro envA rA hzA hnet
    rw [hB] at hnet
    exact gateway_notFound_of_body envA rA hzA hnet

/-- Witness of `unknown_location`: the geocoding provider does not know "01310-100". -/
theorem unknown_location_witness :
    ServiceB.handlerTemperature unknownCepEnv (resolverRequest "01310-100".toList) =
      ⟨[⟨some 2, "http://viacep.com.br/ws/01310100/json".toList⟩],
        .done ⟨404, none, "can not find zipcode".toList⟩⟩ ∧
    (ServiceA.GetTemperature (chainedGatewayEnv unknownCepEnv)
      (gatewayRequest "01310-100".toList)).result =
      .done ⟨404, some "application/text".toList, "can not find zipcode".toList⟩ :=
  have h := unknown_location unknownCepEnv (resolverRequest "01310-100".toList)
    "01310100".toList rfl
  have hfail := h.1 "\x7b\"erro\": true\x7d".toList emptyViaCEP rfl rfl rfl
  ⟨(h.2 (Or.inl ⟨_, hfail⟩)).1,
   (h.2 (Or.inl ⟨_, hfail⟩)).2 (chainedGatewayEnv unknownCepEnv)
      (gatewayRequest "01310-100".toList) (by decide) rfl⟩

theorem SearchLocation_ok (env : ServiceB.Env) (ctx : Context) (cep result : GoString)
    (data : ServiceB.ViaCEP)
    (hnet : env.net ctx ("http://viacep.com.br/ws/".toList ++ cep ++ "/json".toList) =
      .body result)
    (hun : env.unmarshalViaCEP result = .ok data) (hcep : data.Cep ≠ "".toList) :
    (ServiceB.SearchLocation env ctx cep).result = .done (.ok data.City) := by
  unfold ServiceB.SearchLocation ServiceB.requestGetUrl
  simp only [hnet, hun]
  rw [if_pos hcep]

theorem GetTemperatureB_ok (env : ServiceB.Env) (ctx : Context) (city result : GoString)
    (u : ServiceB.WeatherApi)
    (hnet : env.net ctx ("http://api.weatherapi.com/v1/current.json?key=".toList ++
      env.ApiKey ++ "&q=".toList ++ ServiceB.convertName env city ++ "&aqi=no".toList) =
      .body result)
    (hun : env.unmarshalWeatherApi result = .ok u) :
    (ServiceB.GetTemperature env ctx city).result = .done (.ok u.Current.TempC) := by
  unfold ServiceB.GetTemperature ServiceB.requestGetUrl
  simp only [hnet, hun]

theorem handlerTemperature_ok (env : ServiceB.Env) (r : ServiceB.Request)
    (zipcode city : GoString) (c : Float64)
    (hvalid : ServiceB.convertZipcode r.zipcode = .ok zipcode)
    (hloc : (ServiceB.SearchLocation env
      (tracerStart env.newTraceID (propagatorExtract r.ctx r.traceparent)) zipcode).result =
      .done (.ok city))
    (hcity : city ≠ "".toList)
    (htemp : (ServiceB.GetTemperature env
      (tracerStart env.newTraceID (propagatorExtract r.ctx r.traceparent)) city).result =
      .done (.ok c)) :
    (ServiceB.handlerTemperature env r).result =
      .done ⟨200, some "application/json".toList,
        responseJson city (FormatFloat c) (FormatFloat ((c.mul float1_8).add float32))
          (FormatFloat (c.add float273_15))⟩ := by
  have hz := convertZipcodeB_ne_nil hvalid
  unfold ServiceB.handlerTemperature
  simp only [hvalid]
  rw [if_neg (by simpa using hz)]
  generalize ServiceB.SearchLocation env _ zipcode = sl at hloc ⊢
  obtain ⟨calls, res⟩ := sl
  simp only at hloc
  subst hloc
  dsimp only
  rw [if_neg hcity]
  generalize ServiceB.GetTemperature env _ city = gt at htemp ⊢
  obtain ⟨calls2, res2⟩ := gt
  simp only at htemp
  subst htemp
  rfl

theorem gateway_ok_of_body (env : ServiceA.Env) (r : ServiceA.Request) (b : GoString)
    (d : TemperatureStruct)
    (hz : ServiceA.convertZipcode r.req.ZipCode = none)
    (hnet : env.net (tracerStart env.newTraceID (propagatorExtract r.ctx r.traceparent))
        ("http://service_b:8081/temperature/".toList ++ r.req.ZipCode) = .body b)
    (hb : jsonUnmarshal b = some d) (hd : d.City ≠ "".toList) :
    (ServiceA.GetTemperature env r).result =
      .done ⟨200, some "application/json".toList,
        responseJson d.City (FormatFloat d.Celsius) (FormatFloat d.Fahrenheit)
          (FormatFloat d.Kelvin)⟩ := by
  unfold ServiceA.GetTemperature ServiceA.requestGetUrl
  simp only [hz, hnet, hb, if_neg hd]

/-! ## End to end -/

/-- C7 (end-to-end success). The client posts the postal code "01310-100"; the Gateway's
call reaches the Resolver handler with that route variable; the geocoding provider's
reply decodes to the city "São Paulo" with a non-empty postal-code field; the weather
provider's reply decodes to 23.4 degrees Celsius. Then the Resolver answers 200 and the
Gateway answers 200, both with the body of fields city "São Paulo", temp_C 23.4,
temp_F 74.1 and temp_K 296.5. -/
theorem end_to_end_success (envA : ServiceA.Env) (rA : ServiceA.Request)
    (envB : ServiceB.Env) (rB : ServiceB.Request)
    (gbody wbody : GoString) (v : ServiceB.ViaCEP) (u : ServiceB.WeatherApi)
    (hreq : rA.req.ZipCode = "01310-100".toList)
    (hroute : rB.zipcode = "01310-100".toList)
    (hnetA : envA.net (tracerStart envA.newTraceID (propagatorExtract rA.ctx rA.traceparent))
      "http://service_b:8081/temperature/01310-100".toList =
      replyOf (ServiceB.handlerTemperature envB rB))
    (hgeo : envB.net (tracerStart envB.newTraceID (propagatorExtract rB.ctx rB.traceparent))
      "http://viacep.com.br/ws/01310100/json".toList = .body gbody)
    (hv : envB.unmarshalViaCEP gbody = .ok v)
    (hcity : v.City = "São Paulo".toList) (hcep : v.Cep ≠ "".toList)
    (hweather : envB.net
      (tracerStart envB.newTraceID (propagatorExtract rB.ctx rB.traceparent))
      ("http://api.weatherapi.com/v1/current.json?key=".toList ++ envB.ApiKey ++
        "&q=".toList ++ ServiceB.convertName envB "São Paulo".toList ++ "&aqi=no".toList) =
      .body wbody)
    (hu : envB.unmarshalWeatherApi wbody = .ok u)
    (htemp : u.Current.TempC = roundToFloat64 false 234 10) :
    (ServiceB.handlerTemperature envB rB).result =
      .done ⟨200, some "application/json".toList, saoPauloBody⟩ ∧
    (ServiceA.GetTemperature envA rA).result =
      .done ⟨200, some "application/json".toList, saoPauloBody⟩ ∧
    jsonUnmarshal saoPauloBody =
      some ⟨"São Paulo".toList, roundToFloat64 false 234 10, roundToFloat64 false 741 10,
        roundToFloat64 false 2965 10⟩ := by
  have hvalid : ServiceB.convertZipcode rB.zipcode = .ok "01310100".toList := by
    rw [hroute]
    rfl
  have hloc := SearchLocation_ok envB _ "01310100".toList gbody v hgeo hv hcep
  rw [hcity] at hloc
  have hw := GetTemperatureB_ok envB _ "São Paulo".toList wbody u hweather hu
  rw [htemp] at hw
  have hB := handlerTemperature_ok envB rB _ _ _ hvalid hloc (by decide) hw
  have hbody : responseJson "São Paulo".toList (FormatFloat (roundToFloat64 false 234 10))
      (FormatFloat (((roundToFloat64 false 234 10).mul float1_8).add float32))
      (FormatFloat ((roundToFloat64 false 234 10).add float273_15)) = saoPauloBody := by
    decide
  rw [hbody] at hB
  have hparse : jsonUnmarshal saoPauloBody =
      some ⟨"São Paulo".toList, roundToFloat64 false 234 10, roundToFloat64 false 741 10,
        roundToFloat64 false 2965 10⟩ := by decide
  refine ⟨hB, ?_, hparse⟩
  have hreply : replyOf (ServiceB.handlerTemperature envB rB) = .body saoPauloBody := by
    unfold replyOf
    rw [hB]
  rw [hreply] at hnetA
  have hz : ServiceA.convertZipcode rA.req.ZipCode = none := by
    rw [hreq]
    decide
  have hnet' : envA.net (tracerStart envA.newTraceID (propagatorExtract rA.ctx rA.traceparent))
      ("http://service_b:8081/temperature/".toList ++ rA.req.ZipCode) = .body saoPauloBody := by
    rw [hreq]
    exact hnetA
  have hA := gateway_ok_of_body envA rA saoPauloBody _ hz hnet' hparse (by decide)
  rw [hA]
  decide

/-- Witness of `end_to_end_success`: the Gateway chained to a Resolver whose providers
know São Paulo at 23.4 degrees Celsius. -/
theorem end_to_end_success_witness :
    (ServiceB.handlerTemperature (saoPauloEnv (roundToFloat64 false 234 10))
      ⟨none, some 1, "01310-100".toList⟩).result =
      .done ⟨200, some "application/json".toList, saoPauloBody⟩ ∧
    (ServiceA.GetTemperature (chainedGatewayEnv (saoPauloEnv (roundToFloat64 false 234 10)))
      (gatewayRequest "01310-100".toList)).result =
      .done ⟨200, some "application/json".toList, saoPauloBody⟩ :=
  have h := end_to_end_success (chainedGatewayEnv (saoPauloEnv (roundToFloat64 false 234 10)))
    (gatewayRequest "01310-100".toList) (saoPauloEnv (roundToFloat64 false 234 10))
    ⟨none, some 1, "01310-100".toList⟩ "viacep".toList "weatherapi".toList paulistaViaCEP
    ⟨⟨roundToFloat64 false 234 10⟩⟩ rfl rfl rfl rfl rfl rfl (by decide) rfl rfl rfl
  ⟨h.1, h.2.1⟩

/-! ## Trace continuity -/

theorem GetTemperatureA_calls_ctx (env : ServiceA.Env) (r : ServiceA.Request) :
    ∀ c ∈ (ServiceA.GetTemperature env r).calls,
      c = ⟨tracerStart env.newTraceID (propagatorExtract r.ctx r.traceparent),
        "http://service_b:8081/temperature/".toList ++ r.req.ZipCode⟩ := by
  unfold ServiceA.GetTemperature ServiceA.requestGetUrl
  cases ServiceA.convertZipcode r.req.ZipCode with
  | some e => simp
  | none =>
    dsimp only
    cases env.net (tracerStart env.newTraceID (propagatorExtract r.ctx r.traceparent))
      ("http://service_b:8081/temperature/".toList ++ r.req.ZipCode) with
    | noResponse => simp
    | readError err => simp
    | body b =>
      dsimp only
      cases jsonUnmarshal b with
      | none => simp
      | some d =>
        dsimp only
        split <;> simp

theorem handlerTemperature_calls_ctx (env : ServiceB.Env) (r : ServiceB.Request) :
    ∀ c ∈ (ServiceB.handlerTemperature env r).calls,
      c.ctx = tracerStart env.newTraceID (propagatorExtract r.ctx r.traceparent) := by
  cases h : ServiceB.convertZipcode r.zipcode with
  | error e =>
    unfold ServiceB.handlerTemperature
    simp [h]
  | ok z =>
    obtain ⟨rest, hcalls, hrest⟩ := handlerTemperature_calls env r z h
    intro c hc
    rw [hcalls] at hc
    rcases List.mem_cons.1 hc with rfl | hc
    · rfl
    · exact hrest c hc

/-- C10 (trace continuity). Let `t` be the trace id of the span the Gateway handler starts:
the one extracted from the headers of the client request when they carry one, otherwise
the one of the request context, otherwise a new one. Every outbound call of the Gateway
handler is made with the context of that span and injects `t`; and for a Resolver request
that carries the trace id injected by such a call, the span the Resolver handler starts
has trace id `t`, and each of its outbound calls (to the geocoding provider and to the
weather provider) is made with the context of that span and injects `t`. -/
theorem trace_continuity (envA : ServiceA.Env) (rA : ServiceA.Request)
    (envB : ServiceB.Env) (rB : ServiceB.Request) :
    (∀ t0, rA.traceparent = some t0 →
      (propagatorExtract rA.ctx rA.traceparent).getD envA.newTraceID = t0) ∧
    tracerStart envA.newTraceID (propagatorExtract rA.ctx rA.traceparent) =
      some ((propagatorExtract rA.ctx rA.traceparent).getD envA.newTraceID) ∧
    ∀ c ∈ (ServiceA.GetTemperature envA rA).calls,
      c.ctx = tracerStart envA.newTraceID (propagatorExtract rA.ctx rA.traceparent) ∧
      injectedTraceId envA.newTraceID c.ctx =
        (propagatorExtract rA.ctx rA.traceparent).getD envA.newTraceID ∧
      (rB.traceparent = some (injectedTraceId envA.newTraceID c.ctx) →
        tracerStart envB.newTraceID (propagatorExtract rB.ctx rB.traceparent) =
          some ((propagatorExtract rA.ctx rA.traceparent).getD envA.newTraceID) ∧
        ∀ c' ∈ (ServiceB.handlerTemperature envB rB).calls,
          c'.ctx = tracerStart envB.newTraceID (propagatorExtract rB.ctx rB.traceparent) ∧
          injectedTraceId envB.newTraceID c'.ctx =
            (propagatorExtract rA.ctx rA.traceparent).getD envA.newTraceID) := by
  refine ⟨?_, rfl, ?_⟩
  · intro t0 h
    rw [h]
    rfl
  · intro c hc
    have hcA := GetTemperatureA_calls_ctx envA rA c hc
    subst hcA
    refine ⟨rfl, rfl, ?_⟩
    intro hB
    have hspan : tracerStart envB.newTraceID (propagatorExtract rB.ctx rB.traceparent) =
        some ((propagatorExtract rA.ctx rA.traceparent).getD envA.newTraceID) := by
      rw [hB]
      rfl
    refine ⟨hspan, ?_⟩
    intro c' hc'
    have hcB := handlerTemperature_calls_ctx envB rB c' hc'
    refine ⟨hcB, ?_⟩
    rw [hcB, hspan]
    rfl

/-- Witness of `trace_continuity`: a client request carrying the trace id 7 is answered
through the chain; the call to the Resolver and the Resolver's calls to the two providers
are all made within trace 7. -/
theorem trace_continuity_witness :
    (ServiceA.GetTemperature (chainedGatewayEnv (saoPauloEnv (roundToFloat64 false 234 10)))
      ⟨none, some 7, ⟨"01310-100".toList⟩, none⟩).calls =
      [⟨some 7, "http://service_b:8081/temperature/01310-100".toList⟩] ∧
    (ServiceB.handlerTemperature (saoPauloEnv (roundToFloat64 false 234 10))
      ⟨none, some 7, "01310-100".toList⟩).calls =
      [⟨some 7, "http://viacep.com.br/ws/01310100/json".toList⟩,
       ⟨some 7, ("http://api.weatherapi.com/v1/current.json?key=key&q=Sao%20Paulo" ++
          "&aqi=no").toList⟩] ∧
    ∀ c' ∈ (ServiceB.handlerTemperature (saoPauloEnv (roundToFloat64 false 234 10))
      ⟨none, some 7, "01310-100".toList⟩).calls,
      injectedTraceId 2 c'.ctx = 7 :=
  ⟨by decide, by decide, fun c' hc' =>
    (((trace_continuity (chainedGatewayEnv (saoPauloEnv (roundToFloat64 false 234 10)))
      ⟨none, some 7, ⟨"01310-100".toList⟩, none⟩ (saoPauloEnv (roundToFloat64 false 234 10))
      ⟨none, some 7, "01310-100".toList⟩).2.2
      ⟨some 7, "http://service_b:8081/temperature/01310-100".toList⟩ (by decide)).2.2
      rfl).2 c' hc' |>.2⟩

/-! ## Lemmas on float64 rounding -/


theorem IsRne.abs_sub_le_half {x : ℚ} {k : ℕ} (h : IsRne x k) : |(k : ℚ) - x| ≤ 1 / 2 := by
  rcases h with h | ⟨h, _⟩
  · exact le_of_lt h
  · exact le_of_eq h

theorem IsRne.unique {x : ℚ} {k k' : ℕ} (h : IsRne x k) (h' : IsRne x k') : k = k' := by
  by_contra hne
  have hd : (1 : ℚ) ≤ |(k : ℚ) - k'| := by
    rcases Nat.lt_or_gt_of_ne hne with hlt | hlt
    · have : (k : ℚ) + 1 ≤ k' := by exact_mod_cast hlt
      rw [abs_sub_comm, abs_of_nonneg (by linarith)]
      linarith
    · have : (k' : ℚ) + 1 ≤ k := by exact_mod_cast hlt
      rw [abs_of_nonneg (by linarith)]
      linarith
  have htri : |(k : ℚ) - k'| ≤ |(k : ℚ) - x| + |(k' : ℚ) - x| := by
    have := abs_sub_le (k : ℚ) x k'
    rwa [abs_sub_comm x (k' : ℚ)] at this
  rcases h with h | ⟨h, he⟩
  · have := h'.abs_sub_le_half
    linarith
  · rcases h' with h' | ⟨h', he'⟩
    · linarith
    · -- both are ties: k and k' differ by exactly one, so they cannot both be even
      have h1 : |(k : ℚ) - k'| = 1 := le_antisymm (by linarith) hd
      have hpar : ¬ (Even k ∧ Even k') := by
        rintro ⟨⟨a, ha⟩, ⟨b, hb⟩⟩
        subst ha hb
        push_cast at h1
        rcases abs_eq (by norm_num : (0 : ℚ) ≤ 1) |>.1 h1 with h2 | h2
        · have h3 : ((a : ℤ) + a) - (b + b) = 1 := by exact_mod_cast h2
          omega
        · have h3 : ((a : ℤ) + a) - (b + b) = -1 := by exact_mod_cast h2
          omega
      exact hpar ⟨he, he'⟩

theorem roundNearestEven_isRne (n d : ℕ) (hd : 0 < d) :
    IsRne ((n : ℚ) / d) (roundNearestEven n d) := by
  have hdq : (0 : ℚ) < d := by exact_mod_cast hd
  have hdiv : (n : ℚ) / d = (n / d : ℕ) + ((n % d : ℕ) : ℚ) / d := by
    have h2 : ((d * (n / d) + n % d : ℕ) : ℚ) = n := by
      exact_mod_cast congrArg (Nat.cast (R := ℚ)) (Nat.div_add_mod n d)
    push_cast at h2
    field_simp
    linarith
  have hr : n % d < d := Nat.mod_lt _ hd
  have hrq : ((n % d : ℕ) : ℚ) / d < 1 := by
    rw [div_lt_one hdq]
    exact_mod_cast hr
  have hr0 : (0 : ℚ) ≤ ((n % d : ℕ) : ℚ) / d := by positivity
  unfold roundNearestEven
  dsimp only
  set q := n / d with hq
  set r := n % d with hrdef
  split_ifs with h1 h2 h3
  · left
    rw [hdiv]
    have : ((r : ℚ)) / d < 1 / 2 := by
      rw [div_lt_iff₀ hdq]
      have : ((2 * r : ℕ) : ℚ) < d := by exact_mod_cast h1
      push_cast at this
      linarith
    rw [abs_lt]
    constructor <;> linarith
  · left
    rw [hdiv]
    have : (1 : ℚ) / 2 < (r : ℚ) / d := by
      rw [lt_div_iff₀ hdq]
      have : ((d : ℕ) : ℚ) < ((2 * r : ℕ) : ℚ) := by exact_mod_cast h2
      push_cast at this
      linarith
    push_cast
    rw [abs_lt]
    constructor <;> linarith
  · right
    have he : 2 * r = d := by omega
    have : (r : ℚ) / d = 1 / 2 := by
      rw [div_eq_iff (ne_of_gt hdq)]
      have : ((2 * r : ℕ) : ℚ) = d := by exact_mod_cast he
      push_cast at this
      linarith
    rw [hdiv, this]
    constructor
    · rw [abs_of_nonpos (by linarith)]
      linarith
    · exact Nat.even_iff.2 h3
  · right
    have he : 2 * r = d := by omega
    have : (r : ℚ) / d = 1 / 2 := by
      rw [div_eq_iff (ne_of_gt hdq)]
      have : ((2 * r : ℕ) : ℚ) = d := by exact_mod_cast he
      push_cast at this
      linarith
    rw [hdiv, this]
    constructor
    · push_cast
      rw [abs_of_nonneg (by linarith)]
      linarith
    · rw [Nat.even_add_one, Nat.even_iff]
      exact h3

theorem roundScaled_isRne (num den : ℕ) (hden : 0 < den) (e : ℤ) :
    IsRne ((num : ℚ) / den / 2 ^ e) (roundScaled num den e) := by
  match e with
  | Int.ofNat k =>
    unfold roundScaled
    have h := roundNearestEven_isRne num (den * 2 ^ k) (by positivity)
    have e1 : (num : ℚ) / den / 2 ^ (Int.ofNat k) = (num : ℚ) / ((den * 2 ^ k : ℕ) : ℚ) := by
      push_cast
      rw [Int.ofNat_eq_coe, zpow_natCast, div_div]
    rw [e1]
    exact h
  | Int.negSucc k =>
    unfold roundScaled
    have h := roundNearestEven_isRne (num * 2 ^ (k + 1)) den hden
    have e1 : (num : ℚ) / den / 2 ^ (Int.negSucc k) = ((num * 2 ^ (k + 1) : ℕ) : ℚ) / den := by
      push_cast
      rw [zpow_negSucc]
      field_simp
    rw [e1]
    exact h

theorem log2Fuel_spec (fuel n : ℕ) (hf : n ≤ fuel) (hn : 1 ≤ n) :
    2 ^ log2Fuel fuel n ≤ n ∧ n < 2 ^ (log2Fuel fuel n + 1) := by
  induction fuel generalizing n with
  | zero => omega
  | succ fuel ih =>
    unfold log2Fuel
    split_ifs with h2
    · have := ih (n / 2) (by omega) (by omega)
      rw [pow_succ, pow_succ (n := log2Fuel fuel (n / 2) + 1)]
      omega
    · simp
      omega

theorem log2_spec (n : ℕ) (hn : 1 ≤ n) : 2 ^ log2 n ≤ n ∧ n < 2 ^ (log2 n + 1) :=
  log2Fuel_spec n n le_rfl hn

theorem floorLog2Ratio_spec (num den : ℕ) (hnum : 0 < num) (hden : 0 < den) :
    (2 : ℚ) ^ floorLog2Ratio num den ≤ (num : ℚ) / den ∧
    (num : ℚ) / den < 2 ^ (floorLog2Ratio num den + 1) := by
  have hdq : (0 : ℚ) < den := by exact_mod_cast hden
  obtain ⟨ha1, ha2⟩ := log2_spec num hnum
  obtain ⟨hb1, hb2⟩ := log2_spec den hden
  have ha1q : (2 : ℚ) ^ log2 num ≤ num := by exact_mod_cast ha1
  have ha2q : (num : ℚ) < 2 ^ (log2 num + 1) := by exact_mod_cast ha2
  have hb1q : (2 : ℚ) ^ log2 den ≤ den := by exact_mod_cast hb1
  have hb2q : (den : ℚ) < 2 ^ (log2 den + 1) := by exact_mod_cast hb2
  have h2 : (0 : ℚ) < 2 := by norm_num
  have h2ne : (2 : ℚ) ≠ 0 := by norm_num
  -- general bounds: 2^(a-b-1) < num/den < 2^(a-b+1)
  have hlow : (2 : ℚ) ^ ((log2 num : ℤ) - log2 den - 1) ≤ (num : ℚ) / den := by
    rw [le_div_iff₀ hdq]
    have : (2 : ℚ) ^ ((log2 num : ℤ) - log2 den - 1) * 2 ^ (log2 den + 1) = 2 ^ log2 num := by
      rw [← zpow_natCast, ← zpow_natCast, ← zpow_add₀ h2ne]
      congr 1
      push_cast
      ring
    calc (2 : ℚ) ^ ((log2 num : ℤ) - log2 den - 1) * den
        ≤ (2 : ℚ) ^ ((log2 num : ℤ) - log2 den - 1) * 2 ^ (log2 den + 1) := by
          apply mul_le_mul_of_nonneg_left (le_of_lt hb2q)
          positivity
      _ = 2 ^ log2 num := this
      _ ≤ num := ha1q
  have hhigh : (num : ℚ) / den < 2 ^ ((log2 num : ℤ) - log2 den + 1) := by
    rw [div_lt_iff₀ hdq]
    have : (2 : ℚ) ^ ((log2 num : ℤ) - log2 den + 1) * 2 ^ (log2 den) = 2 ^ (log2 num + 1) := by
      rw [← zpow_natCast, ← zpow_natCast, ← zpow_add₀ h2ne]
      congr 1
      push_cast
      ring
    calc (num : ℚ) < 2 ^ (log2 num + 1) := ha2q
      _ = (2 : ℚ) ^ ((log2 num : ℤ) - log2 den + 1) * 2 ^ (log2 den) := this.symm
      _ ≤ (2 : ℚ) ^ ((log2 num : ℤ) - log2 den + 1) * den := by
          apply mul_le_mul_of_nonneg_left hb1q
          positivity
  -- the comparison decides between the two candidates
  have hmid : ((2 : ℚ) ^ ((log2 num : ℤ) - log2 den) ≤ (num : ℚ) / den) ↔
      (if log2 den ≤ log2 num then den * 2 ^ (log2 num - log2 den) ≤ num
       else den ≤ num * 2 ^ (log2 den - log2 num)) := by
    rw [le_div_iff₀ hdq]
    split_ifs with hab
    · have : ((log2 num : ℤ) - log2 den) = ((log2 num - log2 den : ℕ) : ℤ) := by omega
      rw [this, zpow_natCast]
      constructor
      · intro h
        have : ((den * 2 ^ (log2 num - log2 den) : ℕ) : ℚ) ≤ (num : ℕ) := by
          push_cast
          linarith
        exact_mod_cast this
      · intro h
        have : ((den * 2 ^ (log2 num - log2 den) : ℕ) : ℚ) ≤ (num : ℕ) := by exact_mod_cast h
        push_cast at this
        linarith
    · have : ((log2 num : ℤ) - log2 den) = -((log2 den - log2 num : ℕ) : ℤ) := by omega
      rw [this, zpow_neg, zpow_natCast]
      have hp : (0 : ℚ) < 2 ^ (log2 den - log2 num) := by positivity
      rw [inv_mul_le_iff₀ hp]
      constructor
      · intro h
        have : ((den : ℕ) : ℚ) ≤ ((num * 2 ^ (log2 den - log2 num) : ℕ) : ℚ) := by
          push_cast
          linarith
        exact_mod_cast this
      · intro h
        have : ((den : ℕ) : ℚ) ≤ ((num * 2 ^ (log2 den - log2 num) : ℕ) : ℚ) := by
          exact_mod_cast h
        push_cast at this
        linarith
  unfold floorLog2Ratio
  dsimp only
  by_cases hab : log2 den ≤ log2 num
  · rw [if_pos hab]
    rw [if_pos hab] at hmid
    split_ifs with hc
    · exact ⟨hmid.2 hc, hhigh⟩
    · refine ⟨hlow, ?_⟩
      have := not_le.1 (fun h => hc (hmid.1 h))
      have e1 : ((log2 num : ℤ) - log2 den - 1 + 1) = (log2 num : ℤ) - log2 den := by ring
      rw [e1]
      exact this
  · rw [if_neg hab]
    rw [if_neg hab] at hmid
    split_ifs with hc
    · exact ⟨hmid.2 hc, hhigh⟩
    · refine ⟨hlow, ?_⟩
      have := not_le.1 (fun h => hc (hmid.1 h))
      have e1 : ((log2 num : ℤ) - log2 den - 1 + 1) = (log2 num : ℤ) - log2 den := by ring
      rw [e1]
      exact this

theorem IsRne.le_of_lt_nat {x : ℚ} {k b : ℕ} (h : IsRne x k) (hx : x < b) : k ≤ b := by
  by_contra hlt
  have h1 : (b : ℚ) + 1 ≤ k := by exact_mod_cast not_le.1 hlt
  have := h.abs_sub_le_half
  rw [abs_le] at this
  linarith [this.2]

theorem IsRne.ge_of_nat_le {x : ℚ} {k b : ℕ} (h : IsRne x k) (hx : (b : ℚ) ≤ x) : b ≤ k := by
  by_contra hlt
  have h1 : (k : ℚ) + 1 ≤ b := by exact_mod_cast not_le.1 hlt
  have := h.abs_sub_le_half
  rw [abs_le] at this
  linarith [this.1]

/-- A nearest integer is at least as near as any other integer. -/
theorem IsRne.nearest {x : ℚ} {k : ℕ} (h : IsRne x k) (j : ℕ) :
    |(k : ℚ) - x| ≤ |(j : ℚ) - x| := by
  by_cases hjk : j = k
  · rw [hjk]
  · have hd : (1 : ℚ) ≤ |(j : ℚ) - k| := by
      rcases Nat.lt_or_gt_of_ne hjk with hlt | hlt
      · have : (j : ℚ) + 1 ≤ k := by exact_mod_cast hlt
        rw [abs_sub_comm, abs_of_nonneg (by linarith)]
        linarith
      · have : (k : ℚ) + 1 ≤ j := by exact_mod_cast hlt
        rw [abs_of_nonneg (by linarith)]
        linarith
    have htri : |(j : ℚ) - k| ≤ |(j : ℚ) - x| + |(k : ℚ) - x| := by
      have := abs_sub_le (j : ℚ) x k
      rwa [abs_sub_comm x (k : ℚ)] at this
    have := h.abs_sub_le_half
    linarith

theorem roundToFloat64_cases (neg : Bool) (num den : ℕ) (hnum : 0 < num) (hden : 0 < den) :
    ∃ (m : ℕ) (e : ℤ), -1074 ≤ e ∧ IsRne ((num : ℚ) / den / 2 ^ e) m ∧
      (e ≠ -1074 → (2 : ℚ) ^ 52 ≤ (num : ℚ) / den / 2 ^ e) ∧
      ((roundToFloat64 neg num den = .inf neg ∧ (2 : ℚ) ^ (1024 : ℤ) ≤ m * 2 ^ e) ∨
       (∃ (m' : ℕ) (e' : ℤ), roundToFloat64 neg num den = .finite neg m' e' ∧ m' < 2 ^ 53 ∧
          -1074 ≤ e' ∧ e' ≤ 971 ∧ (m' : ℚ) * 2 ^ e' = m * 2 ^ e)) := by
  have h2ne : (2 : ℚ) ≠ 0 := by norm_num
  obtain ⟨hL1, hL2⟩ := floorLog2Ratio_spec num den hnum hden
  set L := floorLog2Ratio num den with hL
  set e : ℤ := max (L - 52) (-1074) with he
  set m := roundScaled num den e with hm
  have hrne : IsRne ((num : ℚ) / den / 2 ^ e) m := roundScaled_isRne num den hden e
  have he1 : -1074 ≤ e := le_max_right _ _
  have he2 : L - 52 ≤ e := le_max_left _ _
  have hpe : (0 : ℚ) < 2 ^ e := by positivity
  have hy53 : (num : ℚ) / den / 2 ^ e < ((2 ^ 53 : ℕ) : ℚ) := by
    rw [div_lt_iff₀ hpe]
    calc (num : ℚ) / den < 2 ^ (L + 1) := hL2
      _ = 2 ^ (53 : ℤ) * 2 ^ (L - 52) := by
          rw [← zpow_add₀ h2ne]
          congr 1
          ring
      _ ≤ 2 ^ (53 : ℤ) * 2 ^ e := by
          apply mul_le_mul_of_nonneg_left _ (by positivity)
          exact zpow_le_zpow_right₀ (by norm_num) he2
      _ = ((2 ^ 53 : ℕ) : ℚ) * 2 ^ e := by norm_num
  have hm53 : m ≤ 2 ^ 53 := hrne.le_of_lt_nat hy53
  have hy52 : e ≠ -1074 → (2 : ℚ) ^ 52 ≤ (num : ℚ) / den / 2 ^ e := by
    intro hne
    have hee : e = L - 52 := by
      rcases max_choice (L - 52) (-1074) with h | h
      · exact h
      · exact absurd h hne
    rw [le_div_iff₀ hpe, hee]
    calc (2 : ℚ) ^ 52 * 2 ^ (L - 52) = 2 ^ L := by
          rw [← zpow_natCast, ← zpow_add₀ h2ne]
          congr 1
          push_cast
          ring
      _ ≤ (num : ℚ) / den := hL1
  have hm52 : e ≠ -1074 → 2 ^ 52 ≤ m := by
    intro hne
    apply hrne.ge_of_nat_le
    have := hy52 hne
    push_cast
    exact this
  refine ⟨m, e, he1, hrne, hy52, ?_⟩
  have hunf : roundToFloat64 neg num den =
      if 971 < (if m = 2 ^ 53 then e + 1 else e) then Float64.inf neg
      else Float64.finite neg (if m = 2 ^ 53 then 2 ^ 52 else m) (if m = 2 ^ 53 then e + 1 else e) := by
    unfold roundToFloat64
    rw [if_neg (by omega)]
  rw [hunf]
  by_cases hc : m = 2 ^ 53
  · simp only [if_pos hc]
    have hval : ((2 ^ 52 : ℕ) : ℚ) * 2 ^ (e + 1) = (m : ℚ) * 2 ^ e := by
      rw [hc, zpow_add₀ h2ne]
      push_cast
      ring
    by_cases hov : 971 < e + 1
    · left
      rw [if_pos hov]
      refine ⟨rfl, ?_⟩
      rw [hc]
      calc (2 : ℚ) ^ (1024 : ℤ) = ((2 ^ 53 : ℕ) : ℚ) * 2 ^ (971 : ℤ) := by norm_num
        _ ≤ ((2 ^ 53 : ℕ) : ℚ) * 2 ^ e := by
          apply mul_le_mul_of_nonneg_left _ (by positivity)
          exact zpow_le_zpow_right₀ (by norm_num) (by omega)
    · right
      rw [if_neg hov]
      exact ⟨2 ^ 52, e + 1, rfl, by norm_num, by omega, by omega, hval⟩
  · simp only [if_neg hc]
    by_cases hov : 971 < e
    · left
      rw [if_pos hov]
      refine ⟨rfl, ?_⟩
      have h52 := hm52 (by omega)
      have h52q : ((2 ^ 52 : ℕ) : ℚ) ≤ m := by exact_mod_cast h52
      calc (2 : ℚ) ^ (1024 : ℤ) = ((2 ^ 52 : ℕ) : ℚ) * 2 ^ (972 : ℤ) := by norm_num
        _ ≤ (m : ℚ) * 2 ^ e := by
          apply mul_le_mul h52q _ (by positivity) (by positivity)
          exact zpow_le_zpow_right₀ (by norm_num) (by omega)
    · right
      rw [if_neg hov]
      exact ⟨m, e, rfl, by omega, he1, by omega, rfl⟩

/-- The candidate chosen by the rounding is at least as near to the rational as any
`float64`. -/
theorem nearest_among_doubles {x : ℚ} {m : ℕ} {e : ℤ}
    (hrne : IsRne (x / 2 ^ e) m) (hnorm : e ≠ -1074 → (2 : ℚ) ^ 52 ≤ x / 2 ^ e)
    (M : ℕ) (E : ℤ) (hM : M < 2 ^ 53) (hE : -1074 ≤ E) :
    |(m : ℚ) * 2 ^ e - x| ≤ |(M : ℚ) * 2 ^ E - x| := by
  have h2ne : (2 : ℚ) ≠ 0 := by norm_num
  have hpe : (0 : ℚ) < 2 ^ e := by positivity
  -- it is enough to compare after division by 2^e
  have key : |(m : ℚ) - x / 2 ^ e| ≤ |(M : ℚ) * 2 ^ E / 2 ^ e - x / 2 ^ e| := by
    by_cases hEe : e ≤ E
    · -- M * 2^E / 2^e is a natural number
      obtain ⟨k, hk⟩ : ∃ k : ℕ, E - e = k := ⟨(E - e).toNat, by omega⟩
      have : (M : ℚ) * 2 ^ E / 2 ^ e = ((M * 2 ^ k : ℕ) : ℚ) := by
        rw [mul_div_assoc, ← zpow_sub₀ h2ne, hk, zpow_natCast]
        push_cast
        ring
      rw [this]
      exact hrne.nearest _
    · have hlt : E < e := not_le.1 hEe
      have hne : e ≠ -1074 := by omega
      have hy := hnorm hne
      have hX : (M : ℚ) * 2 ^ E / 2 ^ e < 2 ^ 52 := by
        rw [mul_div_assoc, ← zpow_sub₀ h2ne]
        have h1 : (2 : ℚ) ^ (E - e) ≤ 2 ^ (-1 : ℤ) :=
          zpow_le_zpow_right₀ (by norm_num) (by omega)
        have h2 : (M : ℚ) < 2 ^ 53 := by exact_mod_cast hM
        have h3 : (0 : ℚ) < 2 ^ (E - e) := by positivity
        calc (M : ℚ) * 2 ^ (E - e) < 2 ^ 53 * 2 ^ (E - e) := by
              exact mul_lt_mul_of_pos_right h2 h3
          _ ≤ 2 ^ 53 * 2 ^ (-1 : ℤ) := by
              apply mul_le_mul_of_nonneg_left h1 (by positivity)
          _ = 2 ^ 52 := by norm_num
      have hn := hrne.nearest (2 ^ 52)
      have e52 : ((2 ^ 52 : ℕ) : ℚ) = 2 ^ 52 := by norm_num
      rw [e52] at hn
      rw [abs_of_nonpos (by linarith : (2 : ℚ) ^ 52 - x / 2 ^ e ≤ 0)] at hn
      rw [abs_of_nonpos (by linarith : (M : ℚ) * 2 ^ E / 2 ^ e - x / 2 ^ e ≤ 0)]
      linarith
  have e1 : (m : ℚ) * 2 ^ e - x = ((m : ℚ) - x / 2 ^ e) * 2 ^ e := by
    field_simp
  have e2 : (M : ℚ) * 2 ^ E - x = ((M : ℚ) * 2 ^ E / 2 ^ e - x / 2 ^ e) * 2 ^ e := by
    field_simp
  rw [e1, e2, abs_mul, abs_mul, abs_of_pos hpe]
  exact mul_le_mul_of_nonneg_right key (le_of_lt hpe)

theorem roundScaled_ten (M : ℕ) (E : ℤ) :
    IsRne (10 * ((M : ℚ) * 2 ^ E)) (roundScaled (10 * M) 1 (-E)) := by
  have h := roundScaled_isRne (10 * M) 1 (by norm_num) (-E)
  have e1 : ((10 * M : ℕ) : ℚ) / (1 : ℕ) / 2 ^ (-E) = 10 * ((M : ℚ) * 2 ^ E) := by
    rw [zpow_neg]
    push_cast
    field_simp
    ring
  rw [e1] at h
  exact h

/-- Formatting a `float64` with one decimal and reading the result back gives a `float64`
that is formatted in the same way. -/
theorem format_parse_format (neg : Bool) (M : ℕ) (E : ℤ) (hM : M < 2 ^ 53) (hE1 : -1074 ≤ E)
    (hE2 : E ≤ 971) :
    ∃ (m' : ℕ) (e' : ℤ),
      roundToFloat64 neg (roundScaled (10 * M) 1 (-E)) 10 = .finite neg m' e' ∧
      roundScaled (10 * m') 1 (-e') = roundScaled (10 * M) 1 (-E) := by
  have h2ne : (2 : ℚ) ≠ 0 := by norm_num
  set t := roundScaled (10 * M) 1 (-E) with ht
  have htX : IsRne (10 * ((M : ℚ) * 2 ^ E)) t := roundScaled_ten M E
  by_cases ht0 : t = 0
  · rw [ht0]
    refine ⟨0, -1074, by unfold roundToFloat64; simp, ?_⟩
    have h := roundScaled_ten 0 (-1074)
    have h0 : IsRne (10 * (((0 : ℕ) : ℚ) * 2 ^ (-1074 : ℤ))) 0 := by
      left
      norm_num
    exact h.unique h0
  · have htpos : 0 < t := Nat.pos_of_ne_zero ht0
    obtain ⟨m, e, he, hrne, hnorm, hcase⟩ := roundToFloat64_cases neg t 10 htpos (by norm_num)
    have hnear := nearest_among_doubles hrne hnorm M E hM hE1
    have hXt : |(M : ℚ) * 2 ^ E - (t : ℚ) / (10 : ℕ)| ≤ 1 / 20 := by
      have := htX.abs_sub_le_half
      have e1 : (M : ℚ) * 2 ^ E - (t : ℚ) / (10 : ℕ) =
          -((t : ℚ) - 10 * ((M : ℚ) * 2 ^ E)) / 10 := by
        push_cast
        ring
      rw [e1, abs_div, abs_neg]
      rw [abs_of_pos (by norm_num : (0 : ℚ) < 10)]
      linarith
    rcases hcase with ⟨_, hbig⟩ | ⟨m', e', hres, _, _, _, hval⟩
    · exfalso
      have hXlt : (M : ℚ) * 2 ^ E ≤ 2 ^ (1024 : ℤ) - 2 ^ (971 : ℤ) := by
        have h1 : (M : ℚ) ≤ 2 ^ 53 - 1 := by
          have : M + 1 ≤ 2 ^ 53 := hM
          have : ((M + 1 : ℕ) : ℚ) ≤ ((2 ^ 53 : ℕ) : ℚ) := by exact_mod_cast this
          push_cast at this
          linarith
        have h2 : (2 : ℚ) ^ E ≤ 2 ^ (971 : ℤ) := zpow_le_zpow_right₀ (by norm_num) hE2
        calc (M : ℚ) * 2 ^ E ≤ (2 ^ 53 - 1) * 2 ^ (971 : ℤ) := by
              apply mul_le_mul h1 h2 (by positivity) (by norm_num)
          _ = 2 ^ (1024 : ℤ) - 2 ^ (971 : ℤ) := by norm_num
      have h3 : (1 : ℚ) ≤ 2 ^ (971 : ℤ) := by norm_num
      have h4 := le_trans hnear hXt
      rw [abs_le] at h4 hXt
      linarith [h4.1, h4.2, hXt.1, hXt.2]
    · refine ⟨m', e', hres, ?_⟩
      have hY := roundScaled_ten m' e'
      apply hY.unique
      rw [hval]
      have hcmp : |(t : ℚ) - 10 * ((m : ℚ) * 2 ^ e)| ≤ |(t : ℚ) - 10 * ((M : ℚ) * 2 ^ E)| := by
        have e1 : (t : ℚ) - 10 * ((m : ℚ) * 2 ^ e) =
            -(10 * ((m : ℚ) * 2 ^ e - (t : ℚ) / (10 : ℕ))) := by
          push_cast
          ring
        have e2 : (t : ℚ) - 10 * ((M : ℚ) * 2 ^ E) =
            -(10 * ((M : ℚ) * 2 ^ E - (t : ℚ) / (10 : ℕ))) := by
          push_cast
          ring
        rw [e1, e2, abs_neg, abs_neg, abs_mul, abs_mul]
        exact mul_le_mul_of_nonneg_left hnear (abs_nonneg _)
      rcases htX with hlt | ⟨heq, hev⟩
      · left
        exact lt_of_le_of_lt hcmp hlt
      · rcases lt_or_eq_of_le (le_trans hcmp (le_of_eq heq)) with h | h
        · left
          exact h
        · right
          exact ⟨h, hev⟩

theorem fracDen_pos (e : ℤ) : 0 < fracDen e := by
  cases e <;> simp [fracDen]

theorem frac_eq (m : ℕ) (e : ℤ) : ((fracNum m e : ℕ) : ℚ) / (fracDen e : ℕ) = (m : ℚ) * 2 ^ e := by
  cases e with
  | ofNat k =>
    simp only [fracNum, fracDen]
    push_cast
    rw [Int.ofNat_eq_coe, zpow_natCast]
    simp
  | negSucc k =>
    simp only [fracNum, fracDen]
    push_cast
    rw [zpow_negSucc]
    field_simp


theorem roundToFloat64_isFloat64 (neg : Bool) (num den : ℕ) (hden : 0 < den)
    (h : (roundToFloat64 neg num den).isFinite = true) :
    (roundToFloat64 neg num den).IsFloat64 := by
  by_cases hnum : num = 0
  · subst hnum
    unfold roundToFloat64
    simp [Float64.IsFloat64]
  · obtain ⟨m, e, _, _, _, hcase⟩ := roundToFloat64_cases neg num den (Nat.pos_of_ne_zero hnum) hden
    rcases hcase with ⟨hinf, _⟩ | ⟨m', e', hres, h1, h2, h3, _⟩
    · rw [hinf] at h
      cases h
    · rw [hres]
      exact ⟨h1, h2, h3⟩

theorem add_isFloat64 (x y : Float64) (h : (x.add y).isFinite = true) : (x.add y).IsFloat64 := by
  match x, y with
  | .finite n1 m1 e1, .finite n2 m2 e2 =>
    unfold Float64.add at h ⊢
    dsimp only at h ⊢
    generalize signedShift n1 m1 (e1 - min e1 e2) + signedShift n2 m2 (e2 - min e1 e2) = s at h ⊢
    by_cases hs : s = 0
    · rw [if_pos hs]
      simp [Float64.IsFloat64]
    · rw [if_neg hs] at h ⊢
      exact roundToFloat64_isFloat64 _ _ _ (fracDen_pos _) h
  | .finite _ _ _, .inf _ => cases h
  | .finite _ _ _, .nan => cases h
  | .inf _, .finite _ _ _ => cases h
  | .inf n1, .inf n2 =>
    have e1 : (Float64.inf n1).add (.inf n2) = if n1 = n2 then .inf n1 else .nan := rfl
    rw [e1] at h
    split_ifs at h <;> cases h
  | .inf _, .nan => cases h
  | .nan, _ => cases h

theorem FormatFloat_reparse (neg : Bool) (M : ℕ) (E : ℤ) (h : (Float64.finite neg M E).IsFloat64) :
    (roundToFloat64 neg (roundScaled (10 * M) 1 (-E)) 10).isFinite = true ∧
    FormatFloat (roundToFloat64 neg (roundScaled (10 * M) 1 (-E)) 10) =
      FormatFloat (.finite neg M E) := by
  obtain ⟨m', e', hres, ht⟩ := format_parse_format neg M E h.1 h.2.1 h.2.2
  rw [hres]
  refine ⟨rfl, ?_⟩
  unfold FormatFloat
  simp only [ht]

theorem signedShift_natAbs (neg : Bool) (m : ℕ) (k : ℤ) :
    (signedShift neg m k).natAbs = m * 2 ^ k.toNat := by
  unfold signedShift
  cases neg
  · rw [if_neg (by simp), one_mul, Int.natAbs_ofNat]
  · rw [if_pos rfl, Int.natAbs_mul, Int.natAbs_ofNat]
    simp

theorem shift_value (m : ℕ) (e1 e : ℤ) (h : e ≤ e1) :
    ((m * 2 ^ (e1 - e).toNat : ℕ) : ℚ) * 2 ^ e = (m : ℚ) * 2 ^ e1 := by
  have h2ne : (2 : ℚ) ≠ 0 := by norm_num
  have hk : ((e1 - e).toNat : ℤ) = e1 - e := Int.toNat_of_nonneg (by omega)
  push_cast
  rw [mul_assoc, ← zpow_natCast, hk, ← zpow_add₀ h2ne]
  congr 2
  ring

theorem float64_le_max (M : ℕ) (E : ℤ) (hM : M < 2 ^ 53) (hE : E ≤ 971) :
    (M : ℚ) * 2 ^ E ≤ 2 ^ (1024 : ℤ) - 2 ^ (971 : ℤ) := by
  have h1 : (M : ℚ) ≤ 2 ^ 53 - 1 := by
    have : M + 1 ≤ 2 ^ 53 := hM
    have : ((M + 1 : ℕ) : ℚ) ≤ ((2 ^ 53 : ℕ) : ℚ) := by exact_mod_cast this
    push_cast at this
    linarith
  have h2 : (2 : ℚ) ^ E ≤ 2 ^ (971 : ℤ) := zpow_le_zpow_right₀ (by norm_num) hE
  calc (M : ℚ) * 2 ^ E ≤ (2 ^ 53 - 1) * 2 ^ (971 : ℤ) := by
        apply mul_le_mul h1 h2 (by positivity) (by norm_num)
    _ = 2 ^ (1024 : ℤ) - 2 ^ (971 : ℤ) := by norm_num

/-- Adding 273.15 to a `float64` never overflows. -/
theorem add_float273_15_isFinite (n : Bool) (M : ℕ) (E : ℤ)
    (h : (Float64.finite n M E).IsFloat64) :
    ((Float64.finite n M E).add float273_15).isFinite = true := by
  have hk : float273_15 = .finite false 4805305618032230 (-44) := by decide
  rw [hk]
  unfold Float64.add
  dsimp only
  set e := min E (-44) with he
  have he1 : e ≤ E := min_le_left _ _
  have he2 : e ≤ -44 := min_le_right _ _
  set s := signedShift n M (E - e) + signedShift false 4805305618032230 (-44 - e) with hs
  by_cases hs0 : s = 0
  · rw [if_pos hs0]
    rfl
  · rw [if_neg hs0]
    have hnum : 0 < fracNum s.natAbs e := by
      have : 0 < s.natAbs := Int.natAbs_pos.2 hs0
      cases e <;> simp [fracNum] <;> omega
    obtain ⟨m, e', _, hrne, hnorm, hcase⟩ :=
      roundToFloat64_cases (decide (s < 0)) (fracNum s.natAbs e) (fracDen e) hnum (fracDen_pos e)
    rcases hcase with ⟨_, hbig⟩ | ⟨m', e'', hres, _⟩
    · exfalso
      have hnear := nearest_among_doubles hrne hnorm (2 ^ 53 - 1) 971 (by norm_num) (by norm_num)
      rw [frac_eq] at hnear
      have hx : (s.natAbs : ℚ) * 2 ^ e ≤ (M : ℚ) * 2 ^ E + 274 := by
        have h1 : s.natAbs ≤ M * 2 ^ (E - e).toNat + 4805305618032230 * 2 ^ (-44 - e).toNat := by
          have := Int.natAbs_add_le (signedShift n M (E - e))
            (signedShift false 4805305618032230 (-44 - e))
          rw [signedShift_natAbs, signedShift_natAbs] at this
          exact this
        have h1q : (s.natAbs : ℚ) ≤
            ((M * 2 ^ (E - e).toNat : ℕ) : ℚ) +
              ((4805305618032230 * 2 ^ (-44 - e).toNat : ℕ) : ℚ) := by
          exact_mod_cast h1
        have hpe : (0 : ℚ) < 2 ^ e := by positivity
        have h2 := mul_le_mul_of_nonneg_right h1q (le_of_lt hpe)
        rw [add_mul, shift_value M E e he1, shift_value 4805305618032230 (-44) e he2] at h2
        have h3 : ((4805305618032230 : ℕ) : ℚ) * 2 ^ (-44 : ℤ) ≤ 274 := by norm_num
        linarith
      have hmax := float64_le_max M E h.1 h.2.2
      have h971 : (1000 : ℚ) ≤ 2 ^ (971 : ℤ) := by norm_num
      have hx0 : (0 : ℚ) ≤ (s.natAbs : ℚ) * 2 ^ e := by positivity
      have hM' : (((2 ^ 53 - 1 : ℕ) : ℚ)) * 2 ^ (971 : ℤ) = 2 ^ (1024 : ℤ) - 2 ^ (971 : ℤ) := by
        norm_num
      rw [hM'] at hnear
      have hle := le_trans (le_abs_self _) hnear
      rcases abs_cases ((2 : ℚ) ^ (1024 : ℤ) - 2 ^ (971 : ℤ) - (s.natAbs : ℚ) * 2 ^ e) with
        ⟨habs, _⟩ | ⟨habs, _⟩
      · rw [habs] at hle
        linarith
      · rw [habs] at hle
        linarith
    · rw [hres]
      rfl

/-! ## Lemmas on decimal digits -/

theorem digitChar_isDigit (d : ℕ) (h : d < 10) : (Nat.digitChar d).isDigit = true := by
  interval_cases d <;> decide

theorem digitChar_toNat (d : ℕ) (h : d < 10) : (Nat.digitChar d).toNat - 48 = d := by
  interval_cases d <;> decide

theorem digitChar_ne_zero (d : ℕ) (h : d < 10) (h0 : 0 < d) : Nat.digitChar d ≠ '0' := by
  interval_cases d <;> decide

theorem toDigitsCore_foldl (fuel n : ℕ) (ds : List Char) (h : n < fuel) :
    (Nat.toDigitsCore 10 fuel n ds).foldl (fun acc c => 10 * acc + (c.toNat - 48)) 0 =
      ds.foldl (fun acc c => 10 * acc + (c.toNat - 48)) n := by
  induction fuel generalizing n ds with
  | zero => omega
  | succ fuel ih =>
    unfold Nat.toDigitsCore
    dsimp only
    split_ifs with h0
    · have hn : n < 10 := by omega
      have : n % 10 = n := Nat.mod_eq_of_lt hn
      simp only [List.foldl_cons, this, digitChar_toNat n hn]
      simp
    · rw [ih (n / 10) _ (by omega)]
      simp only [List.foldl_cons, digitChar_toNat (n % 10) (Nat.mod_lt _ (by norm_num))]
      congr 1
      omega

theorem digitsValue_toDigits (n : ℕ) : digitsValue (Nat.toDigits 10 n) = n := by
  unfold digitsValue Nat.toDigits
  rw [toDigitsCore_foldl _ _ _ (by omega)]
  rfl

theorem toDigitsCore_isDigit (fuel n : ℕ) (ds : List Char)
    (hds : ∀ c ∈ ds, c.isDigit = true) :
    ∀ c ∈ Nat.toDigitsCore 10 fuel n ds, c.isDigit = true := by
  induction fuel generalizing n ds with
  | zero => exact hds
  | succ fuel ih =>
    unfold Nat.toDigitsCore
    dsimp only
    have hd := digitChar_isDigit (n % 10) (Nat.mod_lt _ (by norm_num))
    have hds' : ∀ c ∈ Nat.digitChar (n % 10) :: ds, c.isDigit = true := by
      intro c hc
      rcases List.mem_cons.1 hc with rfl | hc
      · exact hd
      · exact hds c hc
    split_ifs with h0
    · exact hds'
    · exact ih _ _ hds'

theorem toDigits_isDigit (n : ℕ) : ∀ c ∈ Nat.toDigits 10 n, c.isDigit = true :=
  toDigitsCore_isDigit _ _ _ (by simp)

theorem toDigitsCore_head (fuel n : ℕ) (ds : List Char) (h : n < fuel) (hn : 0 < n) :
    ∃ c r, Nat.toDigitsCore 10 fuel n ds = c :: r ∧ c ≠ '0' := by
  induction fuel generalizing n ds with
  | zero => omega
  | succ fuel ih =>
    unfold Nat.toDigitsCore
    dsimp only
    split_ifs with h0
    · have hn10 : n < 10 := by omega
      have : n % 10 = n := Nat.mod_eq_of_lt hn10
      rw [this]
      exact ⟨_, _, rfl, digitChar_ne_zero n hn10 hn⟩
    · exact ih (n / 10) _ (by omega) (Nat.pos_of_ne_zero h0)

theorem toDigits_head (n : ℕ) (hn : 0 < n) : ∃ c r, Nat.toDigits 10 n = c :: r ∧ c ≠ '0' :=
  toDigitsCore_head _ _ _ (by omega) hn

theorem toDigits_digit (d : ℕ) (h : d < 10) : Nat.toDigits 10 d = [Nat.digitChar d] := by
  interval_cases d <;> rfl

theorem takeWhile_append_stop {p : Char → Bool} (r : List Char) (y : Char) (rest : List Char)
    (hr : ∀ c ∈ r, p c = true) (hy : p y = false) :
    (r ++ y :: rest).takeWhile p = r ∧ (r ++ y :: rest).dropWhile p = y :: rest := by
  induction r with
  | nil => simp [List.takeWhile, List.dropWhile, hy]
  | cons c r ih =>
    have hc : p c = true := hr c (by simp)
    have := ih (fun x hx => hr x (by simp [hx]))
    simp [List.takeWhile, List.dropWhile, hc, this.1, this.2]

/-! ## Lemmas on the JSON decoder -/

theorem parseString_plain (s rest : List Char)
    (h : ∀ c ∈ s, c ≠ '"' ∧ c ≠ '\\' ∧ ¬ c.toNat < 0x20) :
    parseString (s ++ '"' :: rest) = some (s, rest) := by
  unfold parseString
  induction s with
  | nil =>
    rw [List.nil_append]
    unfold unquoteAux
    rfl
  | cons c s ih =>
    obtain ⟨h1, h2, h3⟩ := h c (by simp)
    have := ih (fun x hx => h x (by simp [hx]))
    rw [List.cons_append]
    unfold unquoteAux
    rw [if_neg h1, if_neg h2, if_neg h3, this]
    rfl

theorem isDigit_ne {c : Char} (h : c.isDigit = true) :
    c ≠ '-' ∧ c ≠ '"' ∧ c ≠ 't' ∧ c ≠ 'f' ∧ c ≠ 'n' ∧ c ≠ '[' ∧ c ≠ '{' := by
  refine ⟨?_, ?_, ?_, ?_, ?_, ?_, ?_⟩ <;>
  · rintro rfl
    revert h
    decide

theorem parseInt_toDigits (n : ℕ) (y : Char) (rest : List Char) (hy : y.isDigit = false) :
    parseInt (Nat.toDigits 10 n ++ y :: rest) = some (Nat.toDigits 10 n, y :: rest) := by
  by_cases hn : n = 0
  · subst hn
    rfl
  · obtain ⟨c, r, hcr, hc0⟩ := toDigits_head n (Nat.pos_of_ne_zero hn)
    have hall := toDigits_isDigit n
    rw [hcr] at hall ⊢
    have hc : c.isDigit = true := hall c (by simp)
    have hr : ∀ x ∈ r, x.isDigit = true := fun x hx => hall x (by simp [hx])
    obtain ⟨ht, hd⟩ := takeWhile_append_stop r y rest hr hy
    rw [List.cons_append]
    unfold parseInt
    split
    · rename_i heq
      injection heq with h1 h2
      exact absurd h1 hc0
    · rename_i heq
      injection heq with h1 h2
      subst h1 h2
      rw [if_pos hc, ht, hd]
    · rename_i heq
      cases heq

theorem parseFrac_digit (d y : Char) (rest : List Char) (hd : d.isDigit = true)
    (hy : y.isDigit = false) :
    parseFrac ('.' :: d :: y :: rest) = some ([d], y :: rest) := by
  unfold parseFrac
  simp [hd, List.takeWhile, List.dropWhile, hy]

theorem parseExp_none (y : Char) (rest : List Char) (h1 : y ≠ 'e') (h2 : y ≠ 'E') :
    parseExp (y :: rest) = some (0, y :: rest) := by
  unfold parseExp
  simp [h1, h2]

theorem parseNumber_pos (cs : List Char) (h : cs.head? ≠ some '-') (i f : List Char) (e : ℤ)
    (cs1 cs2 cs3 : List Char) (hi : parseInt cs = some (i, cs1))
    (hf : parseFrac cs1 = some (f, cs2)) (he : parseExp cs2 = some (e, cs3)) :
    parseNumber cs = some (⟨false, i, f, e⟩, cs3) := by
  unfold parseNumber
  simp [h, hi, hf, he]

theorem parseNumber_neg (cs : List Char) (i f : List Char) (e : ℤ)
    (cs1 cs2 cs3 : List Char) (hi : parseInt cs = some (i, cs1))
    (hf : parseFrac cs1 = some (f, cs2)) (he : parseExp cs2 = some (e, cs3)) :
    parseNumber ('-' :: cs) = some (⟨true, i, f, e⟩, cs3) := by
  unfold parseNumber
  simp [hi, hf, he]

theorem parseNumber_format (neg : Bool) (n d : ℕ) (hd : d < 10) (y : Char) (rest : List Char)
    (hy : y.isDigit = false) (h1 : y ≠ 'e') (h2 : y ≠ 'E') :
    parseNumber ((if neg then "-".toList else []) ++ Nat.toDigits 10 n ++
        '.' :: Nat.toDigits 10 d ++ y :: rest) =
      some (⟨neg, Nat.toDigits 10 n, [Nat.digitChar d], 0⟩, y :: rest) := by
  rw [toDigits_digit d hd]
  have hdig := digitChar_isDigit d hd
  have hint : parseInt (Nat.toDigits 10 n ++ '.' :: Nat.digitChar d :: y :: rest) =
      some (Nat.toDigits 10 n, '.' :: Nat.digitChar d :: y :: rest) :=
    parseInt_toDigits n '.' _ (by decide)
  have hfrac := parseFrac_digit (Nat.digitChar d) y rest hdig hy
  have hexp := parseExp_none y rest h1 h2
  cases neg with
  | true =>
    have := parseNumber_neg _ _ _ _ _ _ _ hint hfrac hexp
    simpa using this
  | false =>
    have hhead : (Nat.toDigits 10 n ++ '.' :: Nat.digitChar d :: y :: rest).head? ≠ some '-' := by
      by_cases hn : n = 0
      · subst hn
        rw [show Nat.toDigits 10 0 = ['0'] from rfl]
        simp
      · obtain ⟨c, r, hcr, _⟩ := toDigits_head n (Nat.pos_of_ne_zero hn)
        have hc : c.isDigit = true := by
          have := toDigits_isDigit n c
          rw [hcr] at this
          exact this (by simp)
        rw [hcr]
        simp
        exact (isDigit_ne hc).1
    have := parseNumber_pos _ hhead _ _ _ _ _ _ hint hfrac hexp
    simpa using this

theorem parseValue_string (fuel depth : ℕ) (s rest : List Char)
    (h : ∀ c ∈ s, c ≠ '"' ∧ c ≠ '\\' ∧ ¬ c.toNat < 0x20) :
    parseValue (fuel + 1) depth ('"' :: (s ++ '"' :: rest)) = some (.string s, rest) := by
  unfold parseValue
  simp [parseString_plain s rest h]

theorem parseValue_number (fuel depth : ℕ) (c : Char) (r : List Char)
    (hc : c = '-' ∨ c.isDigit = true) (n : JNumber) (rest : List Char)
    (hn : parseNumber (c :: r) = some (n, rest)) :
    parseValue (fuel + 1) depth (c :: r) = some (.number n, rest) := by
  have hne : c ≠ '"' ∧ c ≠ 't' ∧ c ≠ 'f' ∧ c ≠ 'n' ∧ c ≠ '[' ∧ c ≠ '{' := by
    rcases hc with rfl | hc
    · decide
    · exact (isDigit_ne hc).2
  obtain ⟨h1, h2, h3, h4, h5, h6⟩ := hne
  unfold parseValue
  split
  · rename_i heq
    injection heq with e1 e2
    exact absurd e1 h1
  · rename_i heq
    injection heq with e1 e2
    exact absurd e1 h2
  · rename_i heq
    injection heq with e1 e2
    exact absurd e1 h3
  · rename_i heq
    injection heq with e1 e2
    exact absurd e1 h4
  · rename_i heq
    injection heq with e1 e2
    exact absurd e1 h5
  · rename_i heq
    injection heq with e1 e2
    exact absurd e1 h6
  · rw [hn]

theorem digitsValue_append_digit (n d : ℕ) (hd : d < 10) :
    digitsValue (Nat.toDigits 10 n ++ [Nat.digitChar d]) = 10 * n + d := by
  have h := digitsValue_toDigits n
  unfold digitsValue at h ⊢
  rw [List.foldl_append, h]
  simp [digitChar_toNat d hd]

theorem ParseFloat_format (neg : Bool) (t : ℕ) :
    ParseFloat ⟨neg, Nat.toDigits 10 (t / 10), [Nat.digitChar (t % 10)], 0⟩ =
      roundToFloat64 neg t 10 := by
  unfold ParseFloat
  simp only
  rw [digitsValue_append_digit _ _ (Nat.mod_lt _ (by norm_num))]
  have : 10 * (t / 10) + t % 10 = t := Nat.div_add_mod t 10
  rw [this]
  rfl

/-- The text `FormatFloat` gives for a finite `float64`, followed by a character that cannot
continue a number, is read by the decoder as the number literal of that text. -/
theorem parseValue_format (fuel depth : ℕ) (neg : Bool) (M : ℕ) (E : ℤ) (y : Char)
    (rest : List Char) (hy : y.isDigit = false) (h1 : y ≠ 'e') (h2 : y ≠ 'E') :
    parseValue (fuel + 1) depth (FormatFloat (.finite neg M E) ++ y :: rest) =
      some (.number ⟨neg, Nat.toDigits 10 (roundScaled (10 * M) 1 (-E) / 10),
        [Nat.digitChar (roundScaled (10 * M) 1 (-E) % 10)], 0⟩, y :: rest) := by
  have hnum := parseNumber_format neg (roundScaled (10 * M) 1 (-E) / 10)
    (roundScaled (10 * M) 1 (-E) % 10) (Nat.mod_lt _ (by norm_num)) y rest hy h1 h2
  have hform : FormatFloat (.finite neg M E) ++ y :: rest =
      (if neg then "-".toList else []) ++ Nat.toDigits 10 (roundScaled (10 * M) 1 (-E) / 10) ++
        '.' :: Nat.toDigits 10 (roundScaled (10 * M) 1 (-E) % 10) ++ y :: rest := rfl
  rw [hform]
  -- the first character is a sign or a digit
  have hhead : ∃ c r, (if neg then "-".toList else []) ++
      Nat.toDigits 10 (roundScaled (10 * M) 1 (-E) / 10) ++
        '.' :: Nat.toDigits 10 (roundScaled (10 * M) 1 (-E) % 10) ++ y :: rest = c :: r ∧
      (c = '-' ∨ c.isDigit = true) := by
    cases neg with
    | true => exact ⟨'-', _, rfl, Or.inl rfl⟩
    | false =>
      have hall := toDigits_isDigit (roundScaled (10 * M) 1 (-E) / 10)
      cases hdig : Nat.toDigits 10 (roundScaled (10 * M) 1 (-E) / 10) with
      | nil =>
        by_cases hn : roundScaled (10 * M) 1 (-E) / 10 = 0
        · rw [hn] at hdig
          cases hdig
        · obtain ⟨c, r, hcr, _⟩ := toDigits_head _ (Nat.pos_of_ne_zero hn)
          rw [hcr] at hdig
          cases hdig
      | cons c r =>
        rw [hdig] at hall
        exact ⟨c, _, rfl, Or.inr (hall c (by simp))⟩
  obtain ⟨c, r, hcr, hc⟩ := hhead
  rw [hcr] at hnum ⊢
  exact parseValue_number fuel depth c r hc _ _ hnum

theorem responseJson_eq (city c f k : GoString) :
    responseJson city c f k =
      '{' :: ' ' :: '"' :: ("city".toList ++ '"' :: ':' :: ' ' :: '"' :: (city ++
        '"' :: ',' :: ' ' :: '"' :: ("temp_C".toList ++ '"' :: ':' :: ' ' :: (c ++
        ',' :: ' ' :: '"' :: ("temp_F".toList ++ '"' :: ':' :: ' ' :: (f ++
        ',' :: ' ' :: '"' :: ("temp_K".toList ++ '"' :: ':' :: ' ' :: (k ++ [' ', '}'])))))))) := by
  unfold responseJson
  simp [List.append_assoc]

theorem skipWs_colon (rest : List Char) : skipWs (':' :: rest) = ':' :: rest := rfl

theorem skipWs_comma (rest : List Char) : skipWs (',' :: rest) = ',' :: rest := rfl

theorem skipWs_space_quote (rest : List Char) : skipWs (' ' :: '"' :: rest) = '"' :: rest := rfl

theorem skipWs_space_brace : skipWs [' ', '}'] = ['}'] := rfl

theorem skipWs_of_not_space (c : Char) (rest : List Char) (h : isSpace c = false) :
    skipWs (c :: rest) = c :: rest := by
  unfold skipWs
  simp [h]

theorem FormatFloat_head (neg : Bool) (M : ℕ) (E : ℤ) (tail : List Char) :
    ∃ c r, FormatFloat (.finite neg M E) ++ tail = c :: r ∧ isSpace c = false := by
  have hform : FormatFloat (.finite neg M E) ++ tail =
      (if neg then "-".toList else []) ++ Nat.toDigits 10 (roundScaled (10 * M) 1 (-E) / 10) ++
        '.' :: Nat.toDigits 10 (roundScaled (10 * M) 1 (-E) % 10) ++ tail := rfl
  rw [hform]
  cases neg with
  | true => exact ⟨'-', _, rfl, by decide⟩
  | false =>
    have hall := toDigits_isDigit (roundScaled (10 * M) 1 (-E) / 10)
    cases hdig : Nat.toDigits 10 (roundScaled (10 * M) 1 (-E) / 10) with
    | nil =>
      by_cases hn : roundScaled (10 * M) 1 (-E) / 10 = 0
      · rw [hn] at hdig
        cases hdig
      · obtain ⟨c, r, hcr, _⟩ := toDigits_head _ (Nat.pos_of_ne_zero hn)
        rw [hcr] at hdig
        cases hdig
    | cons c r =>
      rw [hdig] at hall
      have hc : c.isDigit = true := hall c (by simp)
      refine ⟨c, _, rfl, ?_⟩
      have h1 : c ≠ ' ' := by
        rintro rfl
        revert hc
        decide
      have h2 : c ≠ '\t' := by
        rintro rfl
        revert hc
        decide
      have h3 : c ≠ '\r' := by
        rintro rfl
        revert hc
        decide
      have h4 : c ≠ '\n' := by
        rintro rfl
        revert hc
        decide
      simp [isSpace, h1, h2, h3, h4]

theorem decodeMembers_string_step (fuel : ℕ) (data : TemperatureStruct)
    (key val rest : List Char)
    (hk : ∀ c ∈ key, c ≠ '"' ∧ c ≠ '\\' ∧ ¬ c.toNat < 0x20)
    (hv : ∀ c ∈ val, c ≠ '"' ∧ c ≠ '\\' ∧ ¬ c.toNat < 0x20) :
    decodeMembers (fuel + 2) data
        ('"' :: (key ++ '"' :: ':' :: ' ' :: '"' :: (val ++ '"' :: ',' :: ' ' :: '"' :: rest))) =
      match storeMember data key (.string val) with
      | none => none
      | some d1 => decodeMembers (fuel + 1) d1 ('"' :: rest) := by
  rw [decodeMembers]
  simp only [parseString_plain key _ hk, skipWs_colon, skipWs_space_quote,
    parseValue_string fuel 1 val _ hv, skipWs_comma]

theorem decodeMembers_number_step (fuel : ℕ) (data : TemperatureStruct)
    (key rest : List Char) (neg : Bool) (M : ℕ) (E : ℤ)
    (hk : ∀ c ∈ key, c ≠ '"' ∧ c ≠ '\\' ∧ ¬ c.toNat < 0x20) :
    decodeMembers (fuel + 2) data
        ('"' :: (key ++ '"' :: ':' :: ' ' :: (FormatFloat (.finite neg M E) ++
          ',' :: ' ' :: '"' :: rest))) =
      match storeMember data key (.number ⟨neg,
          Nat.toDigits 10 (roundScaled (10 * M) 1 (-E) / 10),
          [Nat.digitChar (roundScaled (10 * M) 1 (-E) % 10)], 0⟩) with
      | none => none
      | some d1 => decodeMembers (fuel + 1) d1 ('"' :: rest) := by
  rw [decodeMembers]
  obtain ⟨c, r, hcr, hc⟩ := FormatFloat_head neg M E (',' :: ' ' :: '"' :: rest)
  have hws : skipWs (' ' :: (FormatFloat (.finite neg M E) ++ ',' :: ' ' :: '"' :: rest)) =
      FormatFloat (.finite neg M E) ++ ',' :: ' ' :: '"' :: rest := by
    rw [hcr]
    show skipWs (c :: r) = c :: r
    exact skipWs_of_not_space c r hc
  simp only [parseString_plain key _ hk, skipWs_colon, hws,
    parseValue_format fuel 1 neg M E ',' _ (by decide) (by decide) (by decide), skipWs_comma,
    skipWs_space_quote]

theorem decodeMembers_number_last (fuel : ℕ) (data : TemperatureStruct)
    (key : List Char) (neg : Bool) (M : ℕ) (E : ℤ)
    (hk : ∀ c ∈ key, c ≠ '"' ∧ c ≠ '\\' ∧ ¬ c.toNat < 0x20) :
    decodeMembers (fuel + 2) data
        ('"' :: (key ++ '"' :: ':' :: ' ' :: (FormatFloat (.finite neg M E) ++ [' ', '}']))) =
      match storeMember data key (.number ⟨neg,
          Nat.toDigits 10 (roundScaled (10 * M) 1 (-E) / 10),
          [Nat.digitChar (roundScaled (10 * M) 1 (-E) % 10)], 0⟩) with
      | none => none
      | some d1 => some (d1, []) := by
  rw [decodeMembers]
  obtain ⟨c, r, hcr, hc⟩ := FormatFloat_head neg M E [' ', '}']
  have hws : skipWs (' ' :: (FormatFloat (.finite neg M E) ++ [' ', '}'])) =
      FormatFloat (.finite neg M E) ++ [' ', '}'] := by
    rw [hcr]
    show skipWs (c :: r) = c :: r
    exact skipWs_of_not_space c r hc
  simp only [parseString_plain key _ hk, skipWs_colon, hws,
    parseValue_format fuel 1 neg M E ' ' _ (by decide) (by decide) (by decide),
    skipWs_space_brace]

theorem storeMember_city (data : TemperatureStruct) (city : GoString) :
    storeMember data "city".toList (.string city) = some { data with City := city } := rfl

theorem storeMember_celsius (data : TemperatureStruct) (neg : Bool) (t : ℕ)
    (h : (roundToFloat64 neg t 10).isFinite = true) :
    storeMember data "temp_C".toList
        (.number ⟨neg, Nat.toDigits 10 (t / 10), [Nat.digitChar (t % 10)], 0⟩) =
      some { data with Celsius := roundToFloat64 neg t 10 } := by
  have hl : lookupField "temp_C".toList = some .Celsius := by decide
  unfold storeMember
  rw [hl]
  simp only [storeField, ParseFloat_format, h, if_true]

theorem storeMember_fahrenheit (data : TemperatureStruct) (neg : Bool) (t : ℕ)
    (h : (roundToFloat64 neg t 10).isFinite = true) :
    storeMember data "temp_F".toList
        (.number ⟨neg, Nat.toDigits 10 (t / 10), [Nat.digitChar (t % 10)], 0⟩) =
      some { data with Fahrenheit := roundToFloat64 neg t 10 } := by
  have hl : lookupField "temp_F".toList = some .Fahrenheit := by decide
  unfold storeMember
  rw [hl]
  simp only [storeField, ParseFloat_format, h, if_true]

theorem storeMember_kelvin (data : TemperatureStruct) (neg : Bool) (t : ℕ)
    (h : (roundToFloat64 neg t 10).isFinite = true) :
    storeMember data "temp_K".toList
        (.number ⟨neg, Nat.toDigits 10 (t / 10), [Nat.digitChar (t % 10)], 0⟩) =
      some { data with Kelvin := roundToFloat64 neg t 10 } := by
  have hl : lookupField "temp_K".toList = some .Kelvin := by decide
  unfold storeMember
  rw [hl]
  simp only [storeField, ParseFloat_format, h, if_true]

theorem responseJson_length (city c f k : GoString) :
    ∃ n, 2 * (responseJson city c f k).length + 2 = n + 8 := by
  rw [responseJson_eq]
  refine ⟨2 * (responseJson city c f k).length + 2 - 8, ?_⟩
  rw [responseJson_eq]
  simp only [List.length_cons, List.length_append]
  omega

/-- The decoder of the Gateway reads a report serialised by the Resolver: the city is
read back as it is, and each temperature as the `float64` nearest to its decimal text. -/
theorem jsonUnmarshal_responseJson (city : GoString)
    (hplain : ∀ c ∈ city, c ≠ '"' ∧ c ≠ '\\' ∧ ¬ c.toNat < 0x20)
    (n1 : Bool) (M1 : ℕ) (E1 : ℤ) (n2 : Bool) (M2 : ℕ) (E2 : ℤ) (n3 : Bool) (M3 : ℕ) (E3 : ℤ)
    (h1 : (roundToFloat64 n1 (roundScaled (10 * M1) 1 (-E1)) 10).isFinite = true)
    (h2 : (roundToFloat64 n2 (roundScaled (10 * M2) 1 (-E2)) 10).isFinite = true)
    (h3 : (roundToFloat64 n3 (roundScaled (10 * M3) 1 (-E3)) 10).isFinite = true) :
    jsonUnmarshal (responseJson city (FormatFloat (.finite n1 M1 E1))
        (FormatFloat (.finite n2 M2 E2)) (FormatFloat (.finite n3 M3 E3))) =
      some ⟨city, roundToFloat64 n1 (roundScaled (10 * M1) 1 (-E1)) 10,
        roundToFloat64 n2 (roundScaled (10 * M2) 1 (-E2)) 10,
        roundToFloat64 n3 (roundScaled (10 * M3) 1 (-E3)) 10⟩ := by
  obtain ⟨n, hn⟩ := responseJson_length city (FormatFloat (.finite n1 M1 E1))
    (FormatFloat (.finite n2 M2 E2)) (FormatFloat (.finite n3 M3 E3))
  have hkey : ∀ key : List Char, key = "city".toList ∨ key = "temp_C".toList ∨
      key = "temp_F".toList ∨ key = "temp_K".toList →
      ∀ c ∈ key, c ≠ '"' ∧ c ≠ '\\' ∧ ¬ c.toNat < 0x20 := by
    rintro key (rfl | rfl | rfl | rfl) <;> decide
  unfold jsonUnmarshal
  rw [hn, responseJson_eq]
  have hs1 : ∀ rest, skipWs ('{' :: rest) = '{' :: rest := fun _ => rfl
  rw [hs1]
  simp only [skipWs_space_quote]
  split
  · rename_i heq
    injection heq with e1 e2
    exact absurd e1 (by decide)
  rw [show n + 8 = (n + 6) + 2 from rfl,
    decodeMembers_string_step (n + 6) _ _ _ _ (hkey _ (Or.inl rfl)) hplain, storeMember_city]
  simp only []
  rw [show n + 6 + 1 = (n + 5) + 2 from rfl,
    decodeMembers_number_step (n + 5) _ _ _ _ _ _ (hkey _ (Or.inr (Or.inl rfl))),
    storeMember_celsius _ _ _ h1]
  simp only []
  rw [show n + 5 + 1 = (n + 4) + 2 from rfl,
    decodeMembers_number_step (n + 4) _ _ _ _ _ _ (hkey _ (Or.inr (Or.inr (Or.inl rfl)))),
    storeMember_fahrenheit _ _ _ h2]
  simp only []
  rw [show n + 4 + 1 = (n + 3) + 2 from rfl,
    decodeMembers_number_last (n + 3) _ _ _ _ _ (hkey _ (Or.inr (Or.inr (Or.inr rfl)))),
    storeMember_kelvin _ _ _ h3]
  rfl

/-! ## The round trip across the service boundary -/

/-- C8, as the claim states it, fails on the code. A city name containing double quotes,
or a reading of 1e308 degrees Celsius (whose Fahrenheit value overflows and is written
`+Inf`), is answered 200 by the Resolver, but its body is not valid JSON and the Gateway
answers 404. -/
theorem report_round_trip_counterexample :
    ((ServiceB.handlerTemperature quotedCityEnv (resolverRequest "01310-100".toList)).result =
      .done ⟨200, some "application/json".toList,
        ("\x7b \"city\": \"Santa \"Rita\"\", \"temp_C\": 23.4, \"temp_F\": 74.1, " ++
          "\"temp_K\": 296.5 \x7d").toList⟩ ∧
     (ServiceA.GetTemperature (chainedGatewayEnv quotedCityEnv)
        (gatewayRequest "01310-100".toList)).result =
      .done ⟨404, some "application/text".toList, "can not find zipcode".toList⟩) ∧
    ((ServiceB.handlerTemperature (saoPauloEnv (roundToFloat64 false (10 ^ 308) 1))
        (resolverRequest "01310-100".toList)).result =
      .done ⟨200, some "application/json".toList,
        responseJson "São Paulo".toList (FormatFloat (roundToFloat64 false (10 ^ 308) 1))
          "+Inf".toList (FormatFloat (roundToFloat64 false (10 ^ 308) 1))⟩ ∧
     (ServiceA.GetTemperature
        (chainedGatewayEnv (saoPauloEnv (roundToFloat64 false (10 ^ 308) 1)))
        (gatewayRequest "01310-100".toList)).result =
      .done ⟨404, some "application/text".toList, "can not find zipcode".toList⟩) := by
  refine ⟨⟨?_, ?_⟩, ?_, ?_⟩
  · decide
  · decide
  · rfl
  · rfl

/-- C8, amended. For every city name without double quote, backslash or control character
and every `float64` Celsius reading with which the Resolver answers 200 and whose
Fahrenheit value is finite, the body the Resolver serialises is parsed by the Gateway,
which answers 200 with a body equal to the Resolver's: the same city and the same three
temperature values to one decimal place. -/
theorem report_round_trip (envA : ServiceA.Env) (rA : ServiceA.Request)
    (envB : ServiceB.Env) (rB : ServiceB.Request) (zipcode city : GoString) (c : Float64)
    (hvalid : ServiceB.convertZipcode rB.zipcode = .ok zipcode)
    (hloc : (ServiceB.SearchLocation envB
      (tracerStart envB.newTraceID (propagatorExtract rB.ctx rB.traceparent)) zipcode).result =
      .done (.ok city))
    (hcity : city ≠ "".toList)
    (htemp : (ServiceB.GetTemperature envB
      (tracerStart envB.newTraceID (propagatorExtract rB.ctx rB.traceparent)) city).result =
      .done (.ok c))
    (hplain : ∀ ch ∈ city, ch ≠ '"' ∧ ch ≠ '\\' ∧ ¬ ch.toNat < 0x20)
    (hc : c.IsFloat64)
    (hF : ((c.mul float1_8).add float32).isFinite = true)
    (hzA : ServiceA.convertZipcode rA.req.ZipCode = none)
    (hnetA : envA.net (tracerStart envA.newTraceID (propagatorExtract rA.ctx rA.traceparent))
      ("http://service_b:8081/temperature/".toList ++ rA.req.ZipCode) =
      replyOf (ServiceB.handlerTemperature envB rB)) :
    (ServiceB.handlerTemperature envB rB).result =
      .done ⟨200, some "application/json".toList,
        responseJson city (FormatFloat c) (FormatFloat ((c.mul float1_8).add float32))
          (FormatFloat (c.add float273_15))⟩ ∧
    (ServiceA.GetTemperature envA rA).result =
      .done ⟨200, some "application/json".toList,
        responseJson city (FormatFloat c) (FormatFloat ((c.mul float1_8).add float32))
          (FormatFloat (c.add float273_15))⟩ ∧
    ∃ d, jsonUnmarshal (responseJson city (FormatFloat c)
        (FormatFloat ((c.mul float1_8).add float32)) (FormatFloat (c.add float273_15))) = some d ∧
      d.City = city ∧ FormatFloat d.Celsius = FormatFloat c ∧
      FormatFloat d.Fahrenheit = FormatFloat ((c.mul float1_8).add float32) ∧
      FormatFloat d.Kelvin = FormatFloat (c.add float273_15) := by
  have hB := handlerTemperature_ok envB rB zipcode city c hvalid hloc hcity htemp
  -- the three values are float64 numbers
  obtain ⟨n1, M1, E1, rfl⟩ : ∃ n M E, c = .finite n M E := by
    cases c with
    | finite n M E => exact ⟨n, M, E, rfl⟩
    | inf n => exact absurd hc (by simp [Float64.IsFloat64])
    | nan => exact absurd hc (by simp [Float64.IsFloat64])
  have hFw := add_isFloat64 _ _ hF
  have hK := add_float273_15_isFinite n1 M1 E1 hc
  have hKw := add_isFloat64 _ _ hK
  obtain ⟨n2, M2, E2, hFeq⟩ : ∃ n M E,
      ((Float64.finite n1 M1 E1).mul float1_8).add float32 = .finite n M E := by
    cases hx : ((Float64.finite n1 M1 E1).mul float1_8).add float32 with
    | finite n M E => exact ⟨n, M, E, rfl⟩
    | inf n => rw [hx] at hF; cases hF
    | nan => rw [hx] at hF; cases hF
  obtain ⟨n3, M3, E3, hKeq⟩ : ∃ n M E,
      (Float64.finite n1 M1 E1).add float273_15 = .finite n M E := by
    cases hx : (Float64.finite n1 M1 E1).add float273_15 with
    | finite n M E => exact ⟨n, M, E, rfl⟩
    | inf n => rw [hx] at hK; cases hK
    | nan => rw [hx] at hK; cases hK
  rw [hFeq] at hFw hB ⊢
  rw [hKeq] at hKw hB ⊢
  obtain ⟨h1f, h1s⟩ := FormatFloat_reparse n1 M1 E1 hc
  obtain ⟨h2f, h2s⟩ := FormatFloat_reparse n2 M2 E2 hFw
  obtain ⟨h3f, h3s⟩ := FormatFloat_reparse n3 M3 E3 hKw
  have hparse := jsonUnmarshal_responseJson city hplain n1 M1 E1 n2 M2 E2 n3 M3 E3 h1f h2f h3f
  refine ⟨hB, ?_, ⟨_, hparse, rfl, h1s, h2s, h3s⟩⟩
  have hreply : replyOf (ServiceB.handlerTemperature envB rB) =
      .body (responseJson city (FormatFloat (.finite n1 M1 E1)) (FormatFloat (.finite n2 M2 E2))
        (FormatFloat (.finite n3 M3 E3))) := by
    unfold replyOf
    rw [hB]
  rw [hreply] at hnetA
  have hA := gateway_ok_of_body envA rA _ _ hzA hnetA hparse hcity
  rw [hA]
  simp only [h1s, h2s, h3s]

/-- Witness of `report_round_trip`: São Paulo at 23.4 degrees Celsius. -/
theorem report_round_trip_witness :
    (ServiceA.GetTemperature (chainedGatewayEnv (saoPauloEnv (roundToFloat64 false 234 10)))
      (gatewayRequest "01310-100".toList)).result =
      .done ⟨200, some "application/json".toList,
        responseJson "São Paulo".toList (FormatFloat (roundToFloat64 false 234 10))
          (FormatFloat (((roundToFloat64 false 234 10).mul float1_8).add float32))
          (FormatFloat ((roundToFloat64 false 234 10).add float273_15))⟩ :=
  (report_round_trip (chainedGatewayEnv (saoPauloEnv (roundToFloat64 false 234 10)))
    (gatewayRequest "01310-100".toList) (saoPauloEnv (roundToFloat64 false 234 10))
    ⟨none, some 1, "01310-100".toList⟩ "01310100".toList "São Paulo".toList
    (roundToFloat64 false 234 10) rfl (by decide) (by decide) (by decide) (by decide)
    (roundToFloat64_isFloat64 false 234 10 (by decide) (by decide)) (by decide) (by decide)
    rfl).2.1

/-! ## Lemmas on correctly rounded operations -/

theorem signOf_cases (neg : Bool) : signOf neg = 1 ∨ signOf neg = -1 := by
  cases neg
  · left
    rfl
  · right
    rfl

theorem signOf_xor (a b : Bool) : signOf (a != b) = signOf a * signOf b := by
  cases a <;> cases b <;> simp [signOf]

theorem abs_toRat (neg : Bool) (m : ℕ) (e : ℤ) :
    |(Float64.finite neg m e).toRat| = (m : ℚ) * 2 ^ e := by
  have h : (0 : ℚ) ≤ (m : ℚ) * 2 ^ e := by positivity
  show |signOf neg * ((m : ℚ) * 2 ^ e)| = (m : ℚ) * 2 ^ e
  rcases signOf_cases neg with hs | hs
  · rw [hs, one_mul, abs_of_nonneg h]
  · rw [hs, neg_one_mul, abs_neg, abs_of_nonneg h]

/-- Comparing magnitudes is enough to compare signed values. -/
theorem signed_nearest (s u : ℚ) (hs : s = 1 ∨ s = -1) (hu : u = 1 ∨ u = -1) (a b c : ℚ)
    (hb : 0 ≤ b) (hc : 0 ≤ c) (h : |a - c| ≤ |b - c|) :
    |s * a - s * c| ≤ |u * b - s * c| := by
  have h1 : |s * a - s * c| = |a - c| := by
    rcases hs with hs | hs
    · rw [hs, one_mul, one_mul]
    · rw [hs, neg_one_mul, neg_one_mul, ← neg_sub', abs_neg]
  have h2 : |b - c| ≤ |u * b - s * c| := by
    rcases hs with hs | hs <;> rcases hu with hu | hu <;> rw [hs, hu]
    · rw [one_mul, one_mul]
    · rw [neg_one_mul, one_mul]
      rw [abs_le]
      have : |-b - c| = b + c := by
        rw [abs_of_nonpos (by linarith)]
        ring
      rw [this]
      constructor <;> linarith
    · rw [neg_one_mul, one_mul]
      rw [abs_le]
      have : |b - -c| = b + c := by
        rw [abs_of_nonneg (by linarith)]
        ring
      rw [this]
      constructor <;> linarith
    · rw [neg_one_mul, neg_one_mul, ← neg_sub', abs_neg]
  rw [h1]
  exact le_trans h h2

theorem roundToFloat64_isNearest (neg : Bool) (num den : ℕ) (hden : 0 < den)
    (hfin : (roundToFloat64 neg num den).isFinite = true) :
    IsNearestFloat64 (roundToFloat64 neg num den) (signOf neg * ((num : ℚ) / den)) := by
  refine ⟨roundToFloat64_isFloat64 neg num den hden hfin, ?_⟩
  intro y hy
  match y, hy with
  | .finite n M E, hy =>
    have key : ∃ (m' : ℕ) (e' : ℤ), roundToFloat64 neg num den = .finite neg m' e' ∧
        |(m' : ℚ) * 2 ^ e' - (num : ℚ) / den| ≤ |(M : ℚ) * 2 ^ E - (num : ℚ) / den| := by
      by_cases hnum : num = 0
      · subst hnum
        refine ⟨0, -1074, by unfold roundToFloat64; simp, ?_⟩
        have hM : (0 : ℚ) ≤ (M : ℚ) * 2 ^ E := by positivity
        simp only [Nat.cast_zero, zero_mul, zero_div, sub_zero, abs_zero]
        exact abs_nonneg _
      · obtain ⟨m, e, _, hrne, hnorm, hcase⟩ :=
          roundToFloat64_cases neg num den (Nat.pos_of_ne_zero hnum) hden
        rcases hcase with ⟨hinf, _⟩ | ⟨m', e', hres, _, _, _, hval⟩
        · rw [hinf] at hfin
          cases hfin
        · refine ⟨m', e', hres, ?_⟩
          rw [hval]
          exact nearest_among_doubles hrne hnorm M E hy.1 hy.2.1
    obtain ⟨m', e', hres, hle⟩ := key
    rw [hres]
    unfold Float64.toRat
    exact signed_nearest (signOf neg) (signOf n) (signOf_cases _) (signOf_cases _) _ _ _
      (by positivity) (by positivity) hle

theorem mul_isNearest (x y : Float64) (hfin : (x.mul y).isFinite = true) :
    IsNearestFloat64 (x.mul y) (x.toRat * y.toRat) := by
  match x, y with
  | .finite n1 m1 e1, .finite n2 m2 e2 =>
    have h2ne : (2 : ℚ) ≠ 0 := by norm_num
    have hexact : (Float64.finite n1 m1 e1).toRat * (Float64.finite n2 m2 e2).toRat =
        signOf (n1 != n2) *
          (((fracNum (m1 * m2) (e1 + e2) : ℕ) : ℚ) / (fracDen (e1 + e2) : ℕ)) := by
      rw [frac_eq, signOf_xor]
      unfold Float64.toRat
      push_cast
      rw [zpow_add₀ h2ne]
      ring
    rw [hexact]
    exact roundToFloat64_isNearest _ _ _ (fracDen_pos _) hfin
  | .finite n1 m1 x1, .inf n2 =>
    have e1 : (Float64.finite n1 m1 x1).mul (.inf n2) =
        if m1 = 0 then .nan else .inf (n1 != n2) := rfl
    rw [e1] at hfin
    split_ifs at hfin <;> cases hfin
  | .finite _ _ _, .nan => cases hfin
  | .inf n1, .finite n2 m2 x2 =>
    have e1 : (Float64.inf n1).mul (.finite n2 m2 x2) =
        if m2 = 0 then .nan else .inf (n1 != n2) := rfl
    rw [e1] at hfin
    split_ifs at hfin <;> cases hfin
  | .inf _, .inf _ => cases hfin
  | .inf _, .nan => cases hfin
  | .nan, _ => cases hfin

theorem signedShift_value (neg : Bool) (m : ℕ) (e1 e : ℤ) (h : e ≤ e1) :
    ((signedShift neg m (e1 - e) : ℤ) : ℚ) * 2 ^ e = signOf neg * ((m : ℚ) * 2 ^ e1) := by
  have := shift_value m e1 e h
  unfold signedShift signOf
  cases neg
  · simp only [Bool.false_eq_true, if_false, one_mul]
    rw [← this]
    push_cast
    ring
  · simp only [if_true]
    rw [← this]
    push_cast
    ring

theorem add_isNearest (x y : Float64) (hfin : (x.add y).isFinite = true) :
    IsNearestFloat64 (x.add y) (x.toRat + y.toRat) := by
  match x, y with
  | .finite n1 m1 e1, .finite n2 m2 e2 =>
    have hsum : (((signedShift n1 m1 (e1 - min e1 e2) + signedShift n2 m2 (e2 - min e1 e2) : ℤ)) : ℚ)
        * 2 ^ (min e1 e2) =
        (Float64.finite n1 m1 e1).toRat + (Float64.finite n2 m2 e2).toRat := by
      push_cast
      rw [add_mul, signedShift_value n1 m1 e1 _ (min_le_left _ _),
        signedShift_value n2 m2 e2 _ (min_le_right _ _)]
      rfl
    rw [← hsum]
    unfold Float64.add at hfin ⊢
    dsimp only at hfin ⊢
    generalize signedShift n1 m1 (e1 - min e1 e2) + signedShift n2 m2 (e2 - min e1 e2) = s
      at hfin ⊢
    by_cases hs : s = 0
    · rw [if_pos hs, hs]
      refine ⟨by simp [Float64.IsFloat64], ?_⟩
      intro y _
      simp [Float64.toRat]
    · rw [if_neg hs] at hfin ⊢
      have hexact : ((s : ℤ) : ℚ) * 2 ^ (min e1 e2) =
          signOf (decide (s < 0)) *
            (((fracNum s.natAbs (min e1 e2) : ℕ) : ℚ) / (fracDen (min e1 e2) : ℕ)) := by
        rw [frac_eq]
        have habs : ((s.natAbs : ℕ) : ℚ) = |(s : ℚ)| := by
          rw [Nat.cast_natAbs]
          push_cast
          rfl
        rw [habs]
        by_cases hneg : s < 0
        · have hq : (s : ℚ) < 0 := by exact_mod_cast hneg
          simp only [hneg, decide_True, signOf, if_true]
          rw [abs_of_neg hq]
          ring
        · have hq : (0 : ℚ) ≤ (s : ℚ) := by exact_mod_cast not_lt.1 hneg
          simp only [hneg, decide_False, signOf, Bool.false_eq_true, if_false]
          rw [abs_of_nonneg hq]
          ring
      rw [hexact]
      exact roundToFloat64_isNearest _ _ _ (fracDen_pos _) hfin
  | .finite _ _ _, .inf _ => cases hfin
  | .finite _ _ _, .nan => cases hfin
  | .inf _, .finite _ _ _ => cases hfin
  | .inf n1, .inf n2 =>
    have e1 : (Float64.inf n1).add (.inf n2) = if n1 = n2 then .inf n1 else .nan := rfl
    rw [e1] at hfin
    split_ifs at hfin <;> cases hfin
  | .inf _, .nan => cases hfin
  | .nan, _ => cases hfin

theorem add_finite_left (x y : Float64) (hfin : (x.add y).isFinite = true) :
    x.isFinite = true := by
  match x, y with
  | .finite _ _ _, _ => rfl
  | .inf _, .finite _ _ _ => cases hfin
  | .inf n1, .inf n2 =>
    have e1 : (Float64.inf n1).add (.inf n2) = if n1 = n2 then .inf n1 else .nan := rfl
    rw [e1] at hfin
    split_ifs at hfin <;> cases hfin
  | .inf _, .nan => cases hfin
  | .nan, _ => cases hfin

theorem FormatFloat_isOneDecimal (neg : Bool) (m : ℕ) (e : ℤ) :
    IsOneDecimalOf (FormatFloat (.finite neg m e)) (.finite neg m e) := by
  refine ⟨neg, m, e, roundScaled (10 * m) 1 (-e), rfl, ?_, ?_⟩
  · rw [abs_toRat]
    exact roundScaled_ten m e
  · unfold FormatFloat
    simp only [toDigits_digit _ (Nat.mod_lt _ (by norm_num : 0 < 10))]

theorem roundToFloat64_pos_isNearest (num den : ℕ) (hden : 0 < den)
    (hfin : (roundToFloat64 false num den).isFinite = true) :
    IsNearestFloat64 (roundToFloat64 false num den) ((num : ℚ) / den) := by
  have h := roundToFloat64_isNearest false num den hden hfin
  rwa [show signOf false = 1 from rfl, one_mul] at h

theorem roundToFloat64_finite_or_inf (neg : Bool) (num den : ℕ) (hden : 0 < den) :
    (roundToFloat64 neg num den).isFinite = true ∨ roundToFloat64 neg num den = .inf neg := by
  by_cases hnum : num = 0
  · subst hnum
    left
    have h : roundToFloat64 neg 0 den = .finite neg 0 (-1074) := by
      unfold roundToFloat64
      simp
    rw [h]
    rfl
  · obtain ⟨m, e, _, _, _, hcase⟩ :=
      roundToFloat64_cases neg num den (Nat.pos_of_ne_zero hnum) hden
    rcases hcase with ⟨hinf, _⟩ | ⟨m', e', hres, _⟩
    · right
      exact hinf
    · left
      rw [hres]
      rfl

/-- A product of finite values plus a finite value is finite or an infinity, never a
NaN. -/
theorem mul_add_finite_or_inf (x y z : Float64) (hx : x.isFinite = true)
    (hy : y.isFinite = true) (hz : z.isFinite = true) :
    ((x.mul y).add z).isFinite = true ∨ (x.mul y).add z = .inf false ∨
      (x.mul y).add z = .inf true := by
  match x, y, z, hx, hy, hz with
  | .finite n1 m1 e1, .finite n2 m2 e2, .finite n3 m3 e3, _, _, _ =>
    have hp : (Float64.finite n1 m1 e1).mul (.finite n2 m2 e2) =
        roundToFloat64 (n1 != n2) (fracNum (m1 * m2) (e1 + e2)) (fracDen (e1 + e2)) := rfl
    rcases roundToFloat64_finite_or_inf (n1 != n2) (fracNum (m1 * m2) (e1 + e2))
      (fracDen (e1 + e2)) (fracDen_pos _) with hfin | hinf
    · rw [hp]
      generalize roundToFloat64 (n1 != n2) (fracNum (m1 * m2) (e1 + e2)) (fracDen (e1 + e2)) = p
        at hfin
      match p, hfin with
      | .finite n4 m4 e4, _ =>
        unfold Float64.add
        dsimp only
        split_ifs with hs
        · left
          rfl
        · rcases roundToFloat64_finite_or_inf
            (decide (signedShift n4 m4 (e4 - min e4 e3) + signedShift n3 m3 (e3 - min e4 e3) < 0))
            (fracNum (signedShift n4 m4 (e4 - min e4 e3) +
              signedShift n3 m3 (e3 - min e4 e3)).natAbs (min e4 e3))
            (fracDen (min e4 e3)) (fracDen_pos _) with h | h
          · left
            exact h
          · right
            rw [h]
            cases decide (signedShift n4 m4 (e4 - min e4 e3) +
              signedShift n3 m3 (e3 - min e4 e3) < 0)
            · left
              rfl
            · right
              rfl
    · rw [hp, hinf]
      right
      cases (n1 != n2)
      · left
        rfl
      · right
        rfl

theorem FormatFloat_isOneDecimal_of_isFinite (v : Float64) (h : v.isFinite = true) :
    IsOneDecimalOf (FormatFloat v) v := by
  match v, h with
  | .finite neg m e, _ => exact FormatFloat_isOneDecimal neg m e

theorem not_isOneDecimalOf_of_not_mem (s : GoString) (h : '.' ∉ s) (v : Float64) :
    ¬ IsOneDecimalOf s v := by
  rintro ⟨neg, m, e, t, _, _, hs⟩
  apply h
  rw [hs]
  simp

theorem float32_toRat : float32.toRat = 32 := by
  have h : float32 = .finite false 4503599627370496 (-47) := by decide
  rw [h]
  show signOf false * (((4503599627370496 : ℕ) : ℚ) * 2 ^ (-47 : ℤ)) = 32
  rw [show signOf false = 1 from rfl]
  norm_num

theorem float1_8_isNearest : IsNearestFloat64 float1_8 (9 / 5) := by
  have h := roundToFloat64_pos_isNearest 18 10 (by decide) (by decide)
  have e : ((18 : ℕ) : ℚ) / ((10 : ℕ) : ℚ) = 9 / 5 := by norm_num
  rw [e] at h
  exact h

theorem float273_15_isNearest : IsNearestFloat64 float273_15 (27315 / 100) := by
  have h := roundToFloat64_pos_isNearest 27315 100 (by decide) (by decide)
  have e : ((27315 : ℕ) : ℚ) / ((100 : ℕ) : ℚ) = 27315 / 100 := by norm_num
  rw [e] at h
  exact h

theorem roundToFloat64_isFinite_of_le (neg : Bool) (num den : ℕ) (hden : 0 < den)
    (h : (num : ℚ) / den ≤ 2 ^ (1023 : ℤ)) : (roundToFloat64 neg num den).isFinite = true := by
  rcases roundToFloat64_finite_or_inf neg num den hden with hfin | hinf
  · exact hfin
  · exfalso
    have hnum : 0 < num := by
      rcases Nat.eq_zero_or_pos num with h0 | h0
      · subst h0
        have h : roundToFloat64 neg 0 den = .finite neg 0 (-1074) := by
          unfold roundToFloat64
          simp
        rw [h] at hinf
        cases hinf
      · exact h0
    obtain ⟨m, e, _, hrne, hnorm, hcase⟩ := roundToFloat64_cases neg num den hnum hden
    rcases hcase with ⟨_, hbig⟩ | ⟨m', e', hres, _⟩
    · have hnear := nearest_among_doubles hrne hnorm (2 ^ 53 - 1) 971 (by norm_num) (by norm_num)
      have hM' : (((2 ^ 53 - 1 : ℕ) : ℚ)) * 2 ^ (971 : ℤ) = 2 ^ (1024 : ℤ) - 2 ^ (971 : ℤ) := by
        norm_num
      rw [hM'] at hnear
      have h1 : (2 : ℚ) ^ (1023 : ℤ) + 2 ^ (971 : ℤ) < 2 ^ (1024 : ℤ) := by norm_num
      have h2 : (0 : ℚ) < 2 ^ (971 : ℤ) := by positivity
      have hle := le_trans (le_abs_self _) hnear
      rw [abs_of_nonneg (by linarith)] at hle
      linarith
    · rw [hres] at hinf
      cases hinf

theorem mul_isFinite_of_le (x y : Float64) (hx : x.isFinite = true) (hy : y.isFinite = true)
    (h : |x.toRat * y.toRat| ≤ 2 ^ (1023 : ℤ)) : (x.mul y).isFinite = true := by
  match x, y, hx, hy with
  | .finite n1 m1 e1, .finite n2 m2 e2, _, _ =>
    have h2ne : (2 : ℚ) ≠ 0 := by norm_num
    apply roundToFloat64_isFinite_of_le _ _ _ (fracDen_pos _)
    rw [frac_eq]
    rw [abs_mul, abs_toRat, abs_toRat] at h
    push_cast
    rw [zpow_add₀ h2ne]
    calc (m1 : ℚ) * m2 * (2 ^ e1 * 2 ^ e2) = (m1 : ℚ) * 2 ^ e1 * ((m2 : ℚ) * 2 ^ e2) := by ring
      _ ≤ 2 ^ (1023 : ℤ) := h

theorem add_isFinite_of_le (x y : Float64) (hx : x.isFinite = true) (hy : y.isFinite = true)
    (h : |x.toRat + y.toRat| ≤ 2 ^ (1023 : ℤ)) : (x.add y).isFinite = true := by
  match x, y, hx, hy with
  | .finite n1 m1 e1, .finite n2 m2 e2, _, _ =>
    have hsum : (((signedShift n1 m1 (e1 - min e1 e2) + signedShift n2 m2 (e2 - min e1 e2) : ℤ)) : ℚ)
        * 2 ^ (min e1 e2) =
        (Float64.finite n1 m1 e1).toRat + (Float64.finite n2 m2 e2).toRat := by
      push_cast
      rw [add_mul, signedShift_value n1 m1 e1 _ (min_le_left _ _),
        signedShift_value n2 m2 e2 _ (min_le_right _ _)]
      rfl
    rw [← hsum] at h
    unfold Float64.add
    dsimp only
    generalize signedShift n1 m1 (e1 - min e1 e2) + signedShift n2 m2 (e2 - min e1 e2) = s
      at h ⊢
    split_ifs with hs
    · rfl
    · apply roundToFloat64_isFinite_of_le _ _ _ (fracDen_pos _)
      rw [frac_eq, Nat.cast_natAbs]
      have hp : (0 : ℚ) < 2 ^ (min e1 e2) := by positivity
      rw [abs_mul, abs_of_pos hp] at h
      push_cast
      exact h

theorem IsNearestFloat64.abs_le_two_mul {r : Float64} {x : ℚ} (h : IsNearestFloat64 r x) :
    |r.toRat| ≤ 2 * |x| := by
  have h0 := h.2 (.finite false 0 0) (by simp [Float64.IsFloat64])
  have e0 : (Float64.finite false 0 0).toRat = 0 := by simp [Float64.toRat]
  rw [e0, zero_sub, abs_neg] at h0
  have h1 : |r.toRat| ≤ |r.toRat - x| + |x| := by
    have := abs_add (r.toRat - x) x
    rwa [sub_add_cancel] at this
  linarith

/-- The Fahrenheit value of a reading of magnitude up to `10^300` does not overflow. -/
theorem fahrenheit_isFinite (c : Float64) (hc : c.isFinite = true)
    (h : |c.toRat| ≤ 10 ^ 300) : ((c.mul float1_8).add float32).isFinite = true := by
  have h18 : |float1_8.toRat| ≤ 4 := by
    have := float1_8_isNearest.abs_le_two_mul
    have e : |(9 / 5 : ℚ)| = 9 / 5 := abs_of_nonneg (by norm_num)
    rw [e] at this
    linarith
  have hx : |c.toRat * float1_8.toRat| ≤ 4 * 10 ^ 300 := by
    rw [abs_mul]
    calc |c.toRat| * |float1_8.toRat| ≤ 10 ^ 300 * 4 :=
          mul_le_mul h h18 (abs_nonneg _) (by positivity)
      _ = 4 * 10 ^ 300 := by ring
  have hb1 : (4 * 10 ^ 300 : ℚ) ≤ 2 ^ (1023 : ℤ) := by norm_num
  have hP := mul_isFinite_of_le c float1_8 hc (by decide) (le_trans hx hb1)
  have hPn := (mul_isNearest c float1_8 hP).abs_le_two_mul
  have hb2 : (2 * (4 * 10 ^ 300) + 32 : ℚ) ≤ 2 ^ (1023 : ℤ) := by norm_num
  apply add_isFinite_of_le _ _ hP (by decide)
  rw [float32_toRat]
  have h32 : |(32 : ℚ)| = 32 := abs_of_nonneg (by norm_num)
  have := abs_add (c.mul float1_8).toRat 32
  rw [h32] at this
  linarith

theorem isFinite_of_isFloat64 (c : Float64) (hc : c.IsFloat64) : c.isFinite = true := by
  match c, hc with
  | .finite _ _ _, _ => rfl

/-- What the Resolver does with a finite reading: Kelvin is a correctly rounded sum and is
presented with one decimal; Fahrenheit is a correctly rounded product followed by a
correctly rounded sum and is presented with one decimal, unless it overflowed to an
infinity, which is presented as `+Inf` or `-Inf`. -/
theorem conversion_of_reading (c : Float64) (hc : c.IsFloat64) :
    IsOneDecimalOf (FormatFloat c) c ∧
    IsNearestFloat64 (c.add float273_15) (c.toRat + float273_15.toRat) ∧
    IsOneDecimalOf (FormatFloat (c.add float273_15)) (c.add float273_15) ∧
    ((IsNearestFloat64 (c.mul float1_8) (c.toRat * float1_8.toRat) ∧
      IsNearestFloat64 ((c.mul float1_8).add float32) ((c.mul float1_8).toRat + float32.toRat) ∧
      IsOneDecimalOf (FormatFloat ((c.mul float1_8).add float32))
        ((c.mul float1_8).add float32)) ∨
     (((c.mul float1_8).add float32).isFinite = false ∧
      (FormatFloat ((c.mul float1_8).add float32) = "+Inf".toList ∨
       FormatFloat ((c.mul float1_8).add float32) = "-Inf".toList))) := by
  match c, hc with
  | .finite n M E, hc =>
    have hK := add_float273_15_isFinite n M E hc
    refine ⟨FormatFloat_isOneDecimal n M E, add_isNearest _ _ hK,
      FormatFloat_isOneDecimal_of_isFinite _ hK, ?_⟩
    rcases mul_add_finite_or_inf (.finite n M E) float1_8 float32 rfl (by decide) (by decide)
      with hF | hF | hF
    · left
      exact ⟨mul_isNearest _ _ (add_finite_left _ _ hF), add_isNearest _ _ hF,
        FormatFloat_isOneDecimal_of_isFinite _ hF⟩
    · right
      rw [hF]
      exact ⟨rfl, Or.inl rfl⟩
    · right
      rw [hF]
      exact ⟨rfl, Or.inr rfl⟩

/-! ## Unit conversion -/

/-- C6, as the claim states it, fails on the code. For a reading of 100 degrees Celsius
the Resolver presents the Kelvin value as 373.1, not as 373.2: the `float64` sum
`100 + 273.15` is the `float64` nearest to 373.15, which is smaller than 373.15. And for
a reading of 1e308 degrees Celsius the product `c * 1.8` overflows: the Resolver answers
200 and presents the Fahrenheit value as `+Inf`, which is not fixed-point notation with
one decimal place of any value. -/
theorem unit_conversion_counterexample :
    ((ServiceB.handlerTemperature (saoPauloEnv (roundToFloat64 false 100 1))
      (resolverRequest "01310-100".toList)).result =
      .done ⟨200, some "application/json".toList,
        ("\x7b \"city\": \"São Paulo\", \"temp_C\": 100.0, \"temp_F\": 212.0, " ++
          "\"temp_K\": 373.1 \x7d").toList⟩ ∧
     FormatFloat ((roundToFloat64 false 100 1).add float273_15) ≠ "373.2".toList) ∧
    ((ServiceB.handlerTemperature (saoPauloEnv (roundToFloat64 false (10 ^ 308) 1))
      (resolverRequest "01310-100".toList)).result =
      .done ⟨200, some "application/json".toList,
        responseJson "São Paulo".toList (FormatFloat (roundToFloat64 false (10 ^ 308) 1))
          "+Inf".toList (FormatFloat ((roundToFloat64 false (10 ^ 308) 1).add float273_15))⟩ ∧
     (roundToFloat64 false (10 ^ 308) 1).IsFloat64 ∧
     ((roundToFloat64 false (10 ^ 308) 1).mul float1_8).add float32 = .inf false ∧
     ∀ v : Float64, ¬ IsOneDecimalOf "+Inf".toList v) := by
  refine ⟨⟨?_, ?_⟩, ?_, ?_, ?_, ?_⟩
  · decide
  · decide
  · rfl
  · exact roundToFloat64_isFloat64 false (10 ^ 308) 1 (by decide) rfl
  · rfl
  · exact not_isOneDecimalOf_of_not_mem _ (by decide)

/-- C6, amended. For every finite `float64` Celsius reading `c` (a reading decoded from
JSON is finite) with which the Resolver answers 200, the body carries the texts of `c`, of
`c * 1.8 + 32` and of `c + 273.15`, computed in `float64` arithmetic: the constants are
the `float64` values nearest to 1.8 and 273.15 (32 is exact), the product and each sum
are rounded once, to a nearest `float64`, and nothing is rounded to decimals before the
presentation. The Celsius and the Kelvin value are always finite and are presented in
fixed-point notation rounded to one decimal place (nearest, ties to even). So is the
Fahrenheit value, unless it overflowed to an infinity, which is presented as `+Inf` or
`-Inf`; it does not overflow for a reading of magnitude up to `10^300`. For `c = 0` the Fahrenheit value is 32, presented as 32.0, and the Kelvin value is
the `float64` 273.15, presented as 273.1; for `c = 100` the Fahrenheit value is 212,
presented as 212.0, and the Kelvin value is the `float64` 373.15, presented as 373.1. -/
theorem unit_conversion (env : ServiceB.Env) (r : ServiceB.Request)
    (zipcode city : GoString) (c : Float64)
    (hvalid : ServiceB.convertZipcode r.zipcode = .ok zipcode)
    (hloc : (ServiceB.SearchLocation env
      (tracerStart env.newTraceID (propagatorExtract r.ctx r.traceparent)) zipcode).result =
      .done (.ok city))
    (hcity : city ≠ "".toList)
    (htemp : (ServiceB.GetTemperature env
      (tracerStart env.newTraceID (propagatorExtract r.ctx r.traceparent)) city).result =
      .done (.ok c))
    (hc : c.IsFloat64) :
    (ServiceB.handlerTemperature env r).result =
      .done ⟨200, some "application/json".toList,
        responseJson city (FormatFloat c) (FormatFloat ((c.mul float1_8).add float32))
          (FormatFloat (c.add float273_15))⟩ ∧
    (IsNearestFloat64 float1_8 (9 / 5) ∧ float32.toRat = 32 ∧
      IsNearestFloat64 float273_15 (27315 / 100)) ∧
    (IsOneDecimalOf (FormatFloat c) c ∧
     IsNearestFloat64 (c.add float273_15) (c.toRat + float273_15.toRat) ∧
     IsOneDecimalOf (FormatFloat (c.add float273_15)) (c.add float273_15) ∧
     ((IsNearestFloat64 (c.mul float1_8) (c.toRat * float1_8.toRat) ∧
       IsNearestFloat64 ((c.mul float1_8).add float32)
         ((c.mul float1_8).toRat + float32.toRat) ∧
       IsOneDecimalOf (FormatFloat ((c.mul float1_8).add float32))
         ((c.mul float1_8).add float32)) ∨
      (((c.mul float1_8).add float32).isFinite = false ∧
       (FormatFloat ((c.mul float1_8).add float32) = "+Inf".toList ∨
        FormatFloat ((c.mul float1_8).add float32) = "-Inf".toList)))) ∧
    (|c.toRat| ≤ 10 ^ 300 → ((c.mul float1_8).add float32).isFinite = true) ∧
    ((roundToFloat64 false 0 1).mul float1_8).add float32 = roundToFloat64 false 32 1 ∧
    FormatFloat (roundToFloat64 false 32 1) = "32.0".toList ∧
    (roundToFloat64 false 0 1).add float273_15 = roundToFloat64 false 27315 100 ∧
    ((roundToFloat64 false 100 1).mul float1_8).add float32 = roundToFloat64 false 212 1 ∧
    FormatFloat (roundToFloat64 false 212 1) = "212.0".toList ∧
    (roundToFloat64 false 100 1).add float273_15 = roundToFloat64 false 37315 100 ∧
    FormatFloat (roundToFloat64 false 37315 100) = "373.1".toList ∧
    FormatFloat (roundToFloat64 false 27315 100) = "273.1".toList :=
  ⟨handlerTemperature_ok env r zipcode city c hvalid hloc hcity htemp,
    ⟨float1_8_isNearest, float32_toRat, float273_15_isNearest⟩,
    conversion_of_reading c hc,
    fahrenheit_isFinite c (isFinite_of_isFloat64 c hc),
    by decide, by decide, by decide, by decide, by decide, by decide, by decide, by decide⟩

/-- Witness of `unit_conversion`: São Paulo at 100 degrees Celsius. -/
theorem unit_conversion_witness :
    (ServiceB.handlerTemperature (saoPauloEnv (roundToFloat64 false 100 1))
      (resolverRequest "01310-100".toList)).result =
      .done ⟨200, some "application/json".toList,
        responseJson "São Paulo".toList "100.0".toList "212.0".toList "373.1".toList⟩ ∧
    (roundToFloat64 false 100 1).IsFloat64 :=
  ⟨(unit_conversion (saoPauloEnv (roundToFloat64 false 100 1))
    (resolverRequest "01310-100".toList) "01310100".toList "São Paulo".toList
    (roundToFloat64 false 100 1) rfl (by decide) (by decide) (by decide)
    (roundToFloat64_isFloat64 false 100 1 (by decide) (by decide))).1,
    roundToFloat64_isFloat64 false 100 1 (by decide) (by decide)⟩

end GoexpertOtel
